import Mathlib

/-!
Verification of the core of the basicPicoAudioI2S synthesizer.

The C++ sources are shallowly embedded: Q16.15 fixed-point scalars (C type
`fix15`, a signed 32-bit int) are modelled as unbounded `Int` — the source's
own contract makes callers responsible for staying inside the 32-bit range,
and every quantity handled below stays far inside it; `uint32_t` state is
modelled as `Nat` reduced modulo 2^32 where the source wraps.  C `/` on
signed operands truncates toward zero and is rendered `Int.tdiv`; arithmetic
right shift `>> k` rounds toward minus infinity and is rendered `Int.fdiv`
by `2^k`.  Floating-point computations never reach the audio path directly:
they only produce fix15 constants or sample counts, and those results are
taken as parameters of the corresponding model functions (each such spot is
documented at the definition).
-/

/-! ### Fix15.h — fixed-point primitives -/

def FIX15_ZERO : Int := 0

def FIX15_ONE : Int := 32768

def FIX15_HALF : Int := 16384

/-- `multfix15(a,b) = ((int64)a * (int64)b) >> 15` (arithmetic shift). -/
def multfix15 (a b : Int) : Int := Int.fdiv (a * b) 32768

/-- `divfix15(a,b) = (((int64)a) << 15) / b` (C division truncates toward zero). -/
def divfix15 (a b : Int) : Int := Int.tdiv (a * 32768) b

/-- `int2fix15(a) = a << 15`. -/
def int2fix15 (a : Int) : Int := a * 32768

/-- `clampfix15(val, lo, hi)`: the macro tests `val < lo` first, then `val > hi`. -/
def clampfix15 (v lo hi : Int) : Int := if v < lo then lo else if v > hi then hi else v

/-! ### SmoothedValue.h — `Fix15SmoothedValue`

The control-thread/audio-thread handshake (`pendingTarget`, `hasNewTarget`,
memory barriers) is modelled as plain sequential state: the claims below are
about call sequences, not about the interleaving of the two cores.
-/

structure Fix15SmoothedValue where
  currentValue : Int
  targetValue : Int
  step : Int
  remainingSamples : Int
  rampSamples : Int
  pendingTarget : Int
  hasNewTarget : Bool
  deriving DecidableEq

namespace Fix15SmoothedValue

/-- Default constructor: everything zero. -/
def mk0 : Fix15SmoothedValue :=
  { currentValue := 0, targetValue := 0, step := 0, remainingSamples := 0,
    rampSamples := 0, pendingTarget := 0, hasNewTarget := false }

/-- `reset(numSamples)` sets the ramp length only. -/
def reset (s : Fix15SmoothedValue) (numSamples : Int) : Fix15SmoothedValue :=
  { s with rampSamples := numSamples }

/-- `setValue(v)`: current and target forced to `v`, ramp cancelled. -/
def setValue (s : Fix15SmoothedValue) (v : Int) : Fix15SmoothedValue :=
  { s with currentValue := v, targetValue := v, remainingSamples := 0, step := 0 }

/-- `setTargetValue(v)` (control side): publish the pending target and raise the flag. -/
def setTargetValue (s : Fix15SmoothedValue) (v : Int) : Fix15SmoothedValue :=
  { s with pendingTarget := v, hasNewTarget := true }

/-- `getNextValue()` (audio side): consume a pending target if present, then
advance the ramp by one sample; returns the value and the new state. -/
def getNextValue (s : Fix15SmoothedValue) : Int × Fix15SmoothedValue :=
  let s :=
    if s.hasNewTarget then
      let s := { s with hasNewTarget := false, targetValue := s.pendingTarget,
                        remainingSamples := s.rampSamples }
      if s.remainingSamples > 0 then
        { s with step := divfix15 (s.targetValue - s.currentValue) (int2fix15 s.remainingSamples) }
      else
        { s with currentValue := s.targetValue, step := 0 }
    else s
  let s :=
    if s.remainingSamples > 0 then
      let s := { s with currentValue := s.currentValue + s.step,
                        remainingSamples := s.remainingSamples - 1 }
      if s.remainingSamples = 0 then { s with currentValue := s.targetValue } else s
    else s
  (s.currentValue, s)

/-- `n` successive calls to `getNextValue()`, keeping the final state. -/
def iterNext (n : Nat) (s : Fix15SmoothedValue) : Fix15SmoothedValue :=
  match n with
  | 0 => s
  | n + 1 => iterNext n (s.getNextValue).2

end Fix15SmoothedValue

namespace Fix15SmoothedValue

theorem smIterNext_succ (n : Nat) (s : Fix15SmoothedValue) :
    iterNext (n + 1) s = iterNext n (s.getNextValue).2 := rfl

/-- Once no new target is pending, a running ramp of `k+1` remaining samples lands
exactly on the target after `k+1` further calls. -/
theorem ramp_lands (k : Nat) : ∀ s : Fix15SmoothedValue,
    s.hasNewTarget = false → s.remainingSamples = (k : Int) + 1 →
    (iterNext (k + 1) s).currentValue = s.targetValue := by
  induction k with
  | zero =>
    intro s hflag hrem
    have hpos : s.remainingSamples > 0 := by rw [hrem]; norm_num
    have hz : s.remainingSamples - 1 = 0 := by rw [hrem]; ring
    simp only [smIterNext_succ, iterNext, getNextValue, hflag, Bool.false_eq_true, if_false,
      if_pos hpos, hz, if_pos rfl]
    simp
  | succ k ih =>
    intro s hflag hrem
    rw [smIterNext_succ]
    have hpos : s.remainingSamples > 0 := by rw [hrem]; positivity
    have hne : ¬(s.remainingSamples - 1 = 0) := by rw [hrem]; omega
    have hstep : (s.getNextValue).2 =
        { s with currentValue := s.currentValue + s.step,
                 remainingSamples := s.remainingSamples - 1 } := by
      simp only [getNextValue, hflag, Bool.false_eq_true, if_false, if_pos hpos, if_neg hne]
    rw [hstep]
    exact ih _ hflag (by push_cast at hrem ⊢; omega)

end Fix15SmoothedValue

namespace Fix15SmoothedValue

theorem first_call_fields (s : Fix15SmoothedValue) (b : Int) (hR : 0 < s.rampSamples) :
    ((s.setTargetValue b).getNextValue).2.hasNewTarget = false ∧
    ((s.setTargetValue b).getNextValue).2.targetValue = b ∧
    ((s.setTargetValue b).getNextValue).2.remainingSamples = s.rampSamples - 1 ∧
    (s.rampSamples = 1 → ((s.setTargetValue b).getNextValue).2.currentValue = b) := by
  by_cases h1 : s.rampSamples - 1 = 0
  · simp only [getNextValue, setTargetValue]
    simp [hR, h1]
  · simp only [getNextValue, setTargetValue]
    simp [hR, h1]
    intro h2
    exact absurd h2 (by omega)

end Fix15SmoothedValue

/-- C1: for a `Fix15SmoothedValue` with ramp length `R > 0`, one `setTargetValue(b)`
followed by `R` calls to `getNextValue()` makes the current value exactly `b`
(the `R`-th call returns `b`, since `getNextValue` returns the updated current
value); with `R = 0` the first `getNextValue()` already returns `b`. -/
theorem claim_C1 (s : Fix15SmoothedValue) (b : Int) :
    (0 < s.rampSamples →
      (Fix15SmoothedValue.iterNext s.rampSamples.toNat (s.setTargetValue b)).currentValue = b) ∧
    (s.rampSamples = 0 → ((s.setTargetValue b).getNextValue).1 = b) := by
  constructor
  · intro hR
    obtain ⟨k, hk⟩ : ∃ n : Nat, s.rampSamples = (n : Int) + 1 :=
      ⟨(s.rampSamples - 1).toNat, by omega⟩
    have hkn : s.rampSamples.toNat = k + 1 := by omega
    obtain ⟨hflag, htgt, hrem, hone⟩ := Fix15SmoothedValue.first_call_fields s b hR
    rw [hkn, Fix15SmoothedValue.smIterNext_succ]
    rcases Nat.eq_zero_or_pos k with hk0 | hkpos
    · subst hk0
      simp only [Fix15SmoothedValue.iterNext]
      exact hone (by omega)
    · have : (k - 1 : Nat) + 1 = k := by omega
      rw [← this]
      rw [Fix15SmoothedValue.ramp_lands (k - 1) _ hflag (by rw [hrem]; omega)]
      exact htgt
  · intro hR
    simp only [Fix15SmoothedValue.getNextValue, Fix15SmoothedValue.setTargetValue]
    simp [hR]

/-- C1 witness: a concrete smoother with ramp length 3 and current value 5,
retargeted to 100, reaches exactly 100 after 3 calls. -/
theorem claim_C1_witness :
    (0 : Int) < (3 : Int) ∧
    (Fix15SmoothedValue.iterNext (3 : Int).toNat
      ((⟨5, 5, 0, 0, 3, 5, false⟩ : Fix15SmoothedValue).setTargetValue 100)).currentValue = 100 :=
  ⟨by decide, (claim_C1 ⟨5, 5, 0, 0, 3, 5, false⟩ 100).1 (by decide)⟩

/-! ### SmoothedValue.h — the `SmoothedValue<uint32_t>` template instance

The envelope smooths its attack/decay/release sample counts through
`SmoothedValue<uint32_t>`.  All `uint32_t` arithmetic (wrapping subtraction in
the step computation, wrapping addition in the ramp) is modelled modulo 2^32.
-/

def U32 : Nat := 4294967296

structure SmoothedValueU32 where
  currentValue : Nat
  targetValue : Nat
  step : Nat
  remainingSamples : Int
  rampSamples : Int
  deriving DecidableEq

namespace SmoothedValueU32

/-- `setValue(v)`. -/
def setValue (s : SmoothedValueU32) (v : Nat) : SmoothedValueU32 :=
  { s with currentValue := v % U32, targetValue := v % U32, remainingSamples := 0, step := 0 }

/-- `setTargetValue(v)`: early-out when the target is unchanged, otherwise start
a fresh ramp; `step = (target - current) / (uint32_t)remaining` wraps. -/
def setTargetValue (s : SmoothedValueU32) (v : Nat) : SmoothedValueU32 :=
  if v % U32 = s.targetValue then s
  else
    let s := { s with targetValue := v % U32, remainingSamples := s.rampSamples }
    if s.remainingSamples > 0 then
      { s with step := (s.targetValue + U32 - s.currentValue) % U32 / s.remainingSamples.toNat }
    else
      { s with currentValue := s.targetValue }

/-- `getNextValue()`. -/
def getNextValue (s : SmoothedValueU32) : Nat × SmoothedValueU32 :=
  if s.remainingSamples > 0 then
    let s := { s with currentValue := (s.currentValue + s.step) % U32,
                      remainingSamples := s.remainingSamples - 1 }
    let s := if s.remainingSamples = 0 then { s with currentValue := s.targetValue } else s
    (s.currentValue, s)
  else
    (s.currentValue, s)

end SmoothedValueU32

/-! ### Fix15VCAEnvelopeModule.h — the ADSR/VCA envelope -/

inductive EState where
  | Idle
  | Attack
  | Decay
  | Sustain
  | Release
  | StealFade
  deriving DecidableEq

structure EnvState where
  state : EState
  currentLevel : Int
  sustainLevel : Int
  sSustainLevel : Fix15SmoothedValue
  sAttackSamples : SmoothedValueU32
  sDecaySamples : SmoothedValueU32
  sReleaseSamples : SmoothedValueU32
  sampleCounter : Nat
  attackSamples : Nat
  decaySamples : Nat
  releaseSamples : Nat
  releaseStartLevel : Int
  stealFadeSamples : Nat
  stealFadeStartLevel : Int
  deriving DecidableEq

/-- The progress computation repeated in every timed phase of `getNextValue`:
`(sampleCounter >= samples) ? FIX15_ONE : (fix15)((uint64_t)sampleCounter * 32768 / samples)`
(the 64-bit product of a uint32 counter by 32768 cannot wrap). -/
def envProgress (counter samples : Nat) : Int :=
  if counter ≥ samples then FIX15_ONE else ((counter * 32768 / samples : Nat) : Int)

namespace EnvState

/-- `Fix15VCAEnvelopeModule(sampleRate)`.  The float-derived quantities are taken
as parameters: `sustainRamp` models `round(sampleRate * 0.01)`, `timeRamp` models
`round(sampleRate * 0.05)`, and `attackS`/`decayS`/`releaseS`/`stealS` model the
`(uint32_t)(seconds * sampleRate)` counts (441/8820/22050/220 at the 44.1 kHz
default, where the pre-constructor field defaults coincide with the counts the
constructor recomputes via `updateSampleCounts`).  `float2fix15(0.7f) = 22937`
is the default sustain level. -/
def init (sustainRamp timeRamp : Nat) (attackS decayS releaseS stealS : Nat) : EnvState :=
  { state := .Idle
    currentLevel := 0
    sustainLevel := 22937
    sSustainLevel := (Fix15SmoothedValue.mk0.reset sustainRamp).setValue 22937
    sAttackSamples := { currentValue := attackS % U32, targetValue := attackS % U32,
                        step := 0, remainingSamples := 0, rampSamples := timeRamp }
    sDecaySamples := { currentValue := decayS % U32, targetValue := decayS % U32,
                       step := 0, remainingSamples := 0, rampSamples := timeRamp }
    sReleaseSamples := { currentValue := releaseS % U32, targetValue := releaseS % U32,
                         step := 0, remainingSamples := 0, rampSamples := timeRamp }
    sampleCounter := 0
    attackSamples := attackS % U32
    decaySamples := decayS % U32
    releaseSamples := releaseS % U32
    releaseStartLevel := 0
    stealFadeSamples := stealS % U32
    stealFadeStartLevel := 0 }

/-- `noteOn()`. -/
def noteOn (e : EnvState) : EnvState :=
  if e.currentLevel > 0 then
    { e with state := .StealFade, stealFadeStartLevel := e.currentLevel, sampleCounter := 0 }
  else
    { e with currentLevel := 0, state := .Attack, sampleCounter := 0 }

/-- `noteOff()`. -/
def noteOff (e : EnvState) : EnvState :=
  if e.state = .Idle then e
  else
    { e with releaseStartLevel := e.currentLevel, state := .Release, sampleCounter := 0 }

/-- `isActive()`. -/
def isActive (e : EnvState) : Prop := e.state ≠ .Idle

instance (e : EnvState) : Decidable e.isActive := by unfold isActive; infer_instance

/-- `setAttackTime(seconds)`: the clamped float is converted to
`(uint32_t)(seconds * sampleRate)`; the model receives that count. -/
def setAttackTime (e : EnvState) (n : Nat) : EnvState :=
  { e with attackSamples := n % U32, sAttackSamples := e.sAttackSamples.setTargetValue (n % U32) }

/-- `setDecayTime(seconds)`, same convention as `setAttackTime`. -/
def setDecayTime (e : EnvState) (n : Nat) : EnvState :=
  { e with decaySamples := n % U32, sDecaySamples := e.sDecaySamples.setTargetValue (n % U32) }

/-- `setReleaseTime(seconds)`, same convention as `setAttackTime`. -/
def setReleaseTime (e : EnvState) (n : Nat) : EnvState :=
  { e with releaseSamples := n % U32, sReleaseSamples := e.sReleaseSamples.setTargetValue (n % U32) }

/-- `setSustainLevel(level)`: the source clamps the float argument to [0,1] and
converts with `float2fix15` (an exact 0 maps to `FIX15_ZERO`); the model receives
the resulting fix15 value `v`, which therefore always lies in [0, 32768]. -/
def setSustainLevel (e : EnvState) (v : Int) : EnvState :=
  { e with sSustainLevel := e.sSustainLevel.setTargetValue v }

/-- The per-state part of `getNextValue()`, after the smoothed parameters have
been advanced; `curA`/`curD`/`curR` are the values the three count smoothers
returned.  The `progress > FIX15_ONE` branches of the source are unreachable
(the progress computation is capped at `FIX15_ONE` first) but are translated
faithfully. -/
def phaseStep (e : EnvState) (curA curD curR : Nat) : Int × EnvState :=
  match e.state with
  | .StealFade =>
    if e.stealFadeSamples > 0 then
      let progress := envProgress e.sampleCounter e.stealFadeSamples
      let fadeFactor := FIX15_ONE - progress
      let e := { e with currentLevel := multfix15 e.stealFadeStartLevel fadeFactor,
                        sampleCounter := (e.sampleCounter + 1) % U32 }
      let e := if e.sampleCounter ≥ e.stealFadeSamples then
          { e with currentLevel := 0, state := .Attack, sampleCounter := 0 } else e
      (e.currentLevel, e)
    else
      (0, { e with currentLevel := 0, state := .Attack, sampleCounter := 0 })
  | .Attack =>
    if curA > 0 then
      let progress := envProgress e.sampleCounter curA
      let e :=
        if progress > FIX15_ONE then
          let e := if e.currentLevel < FIX15_ONE then
              { e with sampleCounter :=
                  ((e.currentLevel % (18446744073709551616 : Int)).toNat * curA >>> 15) % U32 }
            else e
          { e with currentLevel := e.currentLevel }
        else { e with currentLevel := progress }
      let e := { e with sampleCounter := (e.sampleCounter + 1) % U32 }
      let e := if e.sampleCounter ≥ curA then
          { e with currentLevel := FIX15_ONE, state := .Decay, sampleCounter := 0 } else e
      (e.currentLevel, e)
    else
      (FIX15_ONE, { e with currentLevel := FIX15_ONE, state := .Decay, sampleCounter := 0 })
  | .Decay =>
    if curD > 0 then
      let progress := envProgress e.sampleCounter curD
      let e :=
        if progress > FIX15_ONE then
          let decayRange := FIX15_ONE - e.sustainLevel
          if decayRange > 0 ∧ e.currentLevel > e.sustainLevel ∧ e.currentLevel ≤ FIX15_ONE then
            let reverseProgress :=
              ((FIX15_ONE - e.currentLevel) % (4294967296 : Int)).toNat * 32768 % U32 / decayRange.toNat
            if reverseProgress ≤ 32768 then
              { e with sampleCounter := (reverseProgress * curD >>> 15) % U32 }
            else e
          else e
        else
          let decayRange := FIX15_ONE - e.sustainLevel
          let decayAmount := multfix15 progress decayRange
          { e with currentLevel := FIX15_ONE - decayAmount }
      let e := { e with sampleCounter := (e.sampleCounter + 1) % U32 }
      let e := if e.sampleCounter ≥ curD then
          { e with currentLevel := e.sustainLevel, state := .Sustain } else e
      (e.currentLevel, e)
    else
      (e.sustainLevel, { e with currentLevel := e.sustainLevel, state := .Sustain })
  | .Sustain =>
    let e := { e with currentLevel := e.sustainLevel }
    let e := if e.sSustainLevel.targetValue = 0 then { e with currentLevel := 0 } else e
    (e.currentLevel, e)
  | .Release =>
    if curR > 0 then
      let progress := envProgress e.sampleCounter curR
      let e :=
        if progress > FIX15_ONE then
          if e.releaseStartLevel > 0 ∧ 0 ≤ e.currentLevel ∧ e.currentLevel ≤ e.releaseStartLevel then
            let levelRatio :=
              (e.currentLevel % (4294967296 : Int)).toNat * 32768 % U32 / e.releaseStartLevel.toNat
            if levelRatio ≤ 32768 then
              { e with sampleCounter := ((32768 - levelRatio) * curR >>> 15) % U32 }
            else e
          else e
        else
          { e with currentLevel := multfix15 e.releaseStartLevel (FIX15_ONE - progress) }
      let e := { e with sampleCounter := (e.sampleCounter + 1) % U32 }
      let e := if e.sampleCounter ≥ curR then
          { e with currentLevel := 0, state := .Idle, sampleCounter := 0 } else e
      (e.currentLevel, e)
    else
      (0, { e with currentLevel := 0, state := .Idle, sampleCounter := 0 })
  | .Idle =>
    (0, { e with currentLevel := 0 })

/-- `getNextValue()`: first the smoothed sustain level and the three smoothed
sample counts advance by one step, then the state machine runs. -/
def getNextValue (e : EnvState) : Int × EnvState :=
  EnvState.phaseStep
    { e with sustainLevel := (e.sSustainLevel.getNextValue).1,
             sSustainLevel := (e.sSustainLevel.getNextValue).2,
             sAttackSamples := (e.sAttackSamples.getNextValue).2,
             sDecaySamples := (e.sDecaySamples.getNextValue).2,
             sReleaseSamples := (e.sReleaseSamples.getNextValue).2 }
    (e.sAttackSamples.getNextValue).1
    (e.sDecaySamples.getNextValue).1
    (e.sReleaseSamples.getNextValue).1

/-- `n` successive calls to `getNextValue()`, keeping the final state. -/
def iterNext (n : Nat) (e : EnvState) : EnvState :=
  match n with
  | 0 => e
  | n + 1 => iterNext n (e.getNextValue).2

end EnvState

/-- One call into the envelope's public mutating interface. -/
inductive EnvOp where
  | noteOn
  | noteOff
  | setAttackTime (n : Nat)
  | setDecayTime (n : Nat)
  | setReleaseTime (n : Nat)
  | setSustainLevel (v : Int)
  | next
  deriving DecidableEq

/-- Which argument values an `EnvOp` can actually carry in the source:
`setSustainLevel` receives `float2fix15` of a float clamped to [0,1], hence a
fix15 value in [0, 32768]; every other call is unconstrained. -/
def EnvOp.valid : EnvOp → Bool
  | .setSustainLevel v => 0 ≤ v && v ≤ 32768
  | _ => true

def EnvState.applyOp (e : EnvState) : EnvOp → EnvState
  | .noteOn => e.noteOn
  | .noteOff => e.noteOff
  | .setAttackTime n => e.setAttackTime n
  | .setDecayTime n => e.setDecayTime n
  | .setReleaseTime n => e.setReleaseTime n
  | .setSustainLevel v => e.setSustainLevel v
  | .next => (e.getNextValue).2

def EnvState.runOps (e : EnvState) (ops : List EnvOp) : EnvState :=
  ops.foldl EnvState.applyOp e

theorem envProgress_nonneg (c s : Nat) : 0 ≤ envProgress c s := by
  unfold envProgress
  split
  · decide
  · positivity

theorem envProgress_le_one (c s : Nat) : envProgress c s ≤ FIX15_ONE := by
  unfold envProgress FIX15_ONE
  split
  · exact le_refl _
  · next h =>
    have hs : 0 < s := by omega
    have hlt : c * 32768 / s < 32768 := by
      rw [Nat.div_lt_iff_lt_mul hs]
      have : c < s := by omega
      calc c * 32768 < s * 32768 := by
            exact Nat.mul_lt_mul_of_lt_of_le this (le_refl _) (by norm_num)
        _ = 32768 * s := by ring
    exact_mod_cast Nat.le_of_lt hlt

theorem envProgress_not_gt (c s : Nat) : ¬ envProgress c s > FIX15_ONE := by
  have := envProgress_le_one c s
  omega

/-- C3 counterexample: with an attack of 1 sample and a decay of 2 samples, a
note-on from Idle followed by three `getNextValue()` calls leaves the envelope
in Sustain with `sampleCounter = 2`: the Decay → Sustain transition does not
reset the counter. -/
theorem claim_C3_counterexample :
    (EnvState.runOps (EnvState.init 441 2205 1 2 5 3)
        [.noteOn, .next, .next, .next]).state = EState.Sustain ∧
    (EnvState.runOps (EnvState.init 441 2205 1 2 5 3)
        [.noteOn, .next, .next, .next]).sampleCounter = 2 := by
  constructor <;> decide

/-- C3 amended: `sampleCounter` is reset to 0 by `noteOn()` (both branches), by
`noteOff()` from any non-Idle state, and on the StealFade → Attack,
Attack → Decay and Release → Idle transitions inside `getNextValue()`; it is
not reset on Decay → Sustain, where it keeps the final decay count (Sustain
ignores the counter and every transition out of Sustain resets it). -/
theorem claim_C3_amended (e : EnvState) :
    (e.noteOn.sampleCounter = 0) ∧
    (e.state ≠ EState.Idle → e.noteOff.sampleCounter = 0) ∧
    (e.state = EState.StealFade → (e.getNextValue).2.state = EState.Attack →
      (e.getNextValue).2.sampleCounter = 0) ∧
    (e.state = EState.Attack → (e.getNextValue).2.state = EState.Decay →
      (e.getNextValue).2.sampleCounter = 0) ∧
    (e.state = EState.Release → (e.getNextValue).2.state = EState.Idle →
      (e.getNextValue).2.sampleCounter = 0) := by
  refine ⟨?_, ?_, ?_, ?_, ?_⟩
  · unfold EnvState.noteOn
    split <;> rfl
  · intro h
    unfold EnvState.noteOff
    rw [if_neg h]
  · intro hst
    by_cases hS : e.stealFadeSamples > 0
    · by_cases hC : (e.sampleCounter + 1) % U32 ≥ e.stealFadeSamples <;>
        simp [EnvState.getNextValue, EnvState.phaseStep, hst, hS, hC]
    · simp [EnvState.getNextValue, EnvState.phaseStep, hst, hS]
  · intro hst
    by_cases hA : (e.sAttackSamples.getNextValue).1 > 0
    · have hP := envProgress_not_gt e.sampleCounter (e.sAttackSamples.getNextValue).1
      by_cases hC2 : (e.sampleCounter + 1) % U32 ≥ (e.sAttackSamples.getNextValue).1 <;>
        simp [EnvState.getNextValue, EnvState.phaseStep, hst, hA, hP, hC2]
    · simp [EnvState.getNextValue, EnvState.phaseStep, hst, hA]
  · intro hst
    by_cases hR : (e.sReleaseSamples.getNextValue).1 > 0
    · have hP := envProgress_not_gt e.sampleCounter (e.sReleaseSamples.getNextValue).1
      by_cases hC2 : (e.sampleCounter + 1) % U32 ≥ (e.sReleaseSamples.getNextValue).1 <;>
        simp [EnvState.getNextValue, EnvState.phaseStep, hst, hR, hP, hC2]
    · simp [EnvState.getNextValue, EnvState.phaseStep, hst, hR]

/-- A concrete envelope sitting in Release, one sample away from Idle. -/
def relExample : EnvState :=
  { EnvState.init 441 2205 1 2 1 3 with
      state := EState.Release, currentLevel := 100, releaseStartLevel := 100 }

/-- C3 witness: on `relExample` the next `getNextValue()` performs the
Release → Idle transition and leaves `sampleCounter = 0`. -/
theorem claim_C3_witness :
    relExample.state = EState.Release ∧
    (relExample.getNextValue).2.state = EState.Idle ∧
    (relExample.getNextValue).2.sampleCounter = 0 :=
  ⟨by decide, by decide, (claim_C3_amended relExample).2.2.2.2 (by decide) (by decide)⟩

theorem multfix15_eq_ediv (a b : Int) : multfix15 a b = a * b / 32768 := by
  unfold multfix15
  exact Int.fdiv_eq_ediv _ (by norm_num)

theorem multfix15_nonneg {a b : Int} (ha : 0 ≤ a) (hb : 0 ≤ b) : 0 ≤ multfix15 a b :=
  Int.fdiv_nonneg (mul_nonneg ha hb) (by norm_num)

theorem multfix15_one (a : Int) : multfix15 a 32768 = a :=
  Int.mul_fdiv_cancel a (by norm_num)

theorem multfix15_le_one {a b : Int} (ha : a ≤ 32768) (hb0 : 0 ≤ b) (hb : b ≤ 32768) :
    multfix15 a b ≤ 32768 := by
  rw [multfix15_eq_ediv]
  have hab : a * b ≤ 32768 * 32768 := by nlinarith
  have := Int.ediv_le_ediv (by norm_num : (0:Int) < 32768) hab
  simpa using this

theorem multfix15_mono_right {a b1 b2 : Int} (ha : 0 ≤ a) (h : b1 ≤ b2) :
    multfix15 a b1 ≤ multfix15 a b2 := by
  rw [multfix15_eq_ediv, multfix15_eq_ediv]
  exact Int.ediv_le_ediv (by norm_num) (mul_le_mul_of_nonneg_left h ha)

theorem envProgress_mono {c1 c2 : Nat} (s : Nat) (h : c1 ≤ c2) :
    envProgress c1 s ≤ envProgress c2 s := by
  unfold envProgress
  by_cases h1 : c1 ≥ s
  · rw [if_pos h1, if_pos (by omega)]
  · rw [if_neg h1]
    by_cases h2 : c2 ≥ s
    · rw [if_pos h2]
      exact envProgress_le_one c1 s |>.trans_eq rfl |> fun _ => by
        have := envProgress_le_one c1 s
        unfold envProgress at this
        rw [if_neg h1] at this
        exact this
    · rw [if_neg h2]
      have : c1 * 32768 / s ≤ c2 * 32768 / s :=
        Nat.div_le_div_right (Nat.mul_le_mul_right _ h)
      exact_mod_cast this

/-- The value `getNextValue()` returns is the updated `currentLevel` of the
post-state, in every phase. -/
theorem EnvState.value_eq_currentLevel (e : EnvState) :
    (e.getNextValue).1 = (e.getNextValue).2.currentLevel := by
  unfold EnvState.getNextValue EnvState.phaseStep
  split <;> (repeat' split) <;> rfl

theorem EnvState.iterNext_succ (n : Nat) (e : EnvState) :
    EnvState.iterNext (n + 1) e = EnvState.iterNext n (e.getNextValue).2 := rfl

theorem EnvState.iterNext_add (m n : Nat) (e : EnvState) :
    EnvState.iterNext (m + n) e = EnvState.iterNext n (EnvState.iterNext m e) := by
  induction m generalizing e with
  | zero => rw [Nat.zero_add]; rfl
  | succ m ih =>
    have h1 : m + 1 + n = (m + n) + 1 := by omega
    rw [h1, EnvState.iterNext_succ, EnvState.iterNext_succ, ih]

/-- One StealFade sample that does not yet finish the fade. -/
theorem steal_step (e : EnvState) (hst : e.state = EState.StealFade)
    (hcnt : e.sampleCounter + 1 < e.stealFadeSamples) (hU : e.stealFadeSamples < U32) :
    (e.getNextValue).2.state = EState.StealFade ∧
    (e.getNextValue).2.sampleCounter = e.sampleCounter + 1 ∧
    (e.getNextValue).2.stealFadeSamples = e.stealFadeSamples ∧
    (e.getNextValue).2.stealFadeStartLevel = e.stealFadeStartLevel ∧
    (e.getNextValue).2.currentLevel =
      multfix15 e.stealFadeStartLevel (FIX15_ONE - envProgress e.sampleCounter e.stealFadeSamples) := by
  have hS : e.stealFadeSamples > 0 := by omega
  have hmod : (e.sampleCounter + 1) % U32 = e.sampleCounter + 1 := Nat.mod_eq_of_lt (by omega)
  have hC : ¬(e.sampleCounter + 1 ≥ e.stealFadeSamples) := by omega
  simp [EnvState.getNextValue, EnvState.phaseStep, hst, hS, hmod, hC]

/-- The StealFade sample that completes the fade: level snaps to 0, Attack begins. -/
theorem steal_final (e : EnvState) (hst : e.state = EState.StealFade)
    (hcnt : e.sampleCounter + 1 = e.stealFadeSamples) (hU : e.stealFadeSamples < U32) :
    (e.getNextValue).2.state = EState.Attack ∧
    (e.getNextValue).2.currentLevel = 0 ∧
    (e.getNextValue).2.sampleCounter = 0 ∧
    (e.getNextValue).1 = 0 := by
  have hS : e.stealFadeSamples > 0 := by omega
  have hmod : (e.sampleCounter + 1) % U32 = e.sampleCounter + 1 := Nat.mod_eq_of_lt (by omega)
  have hC : e.sampleCounter + 1 ≥ e.stealFadeSamples := by omega
  simp [EnvState.getNextValue, EnvState.phaseStep, hst, hS, hmod, hC]

/-- `k` StealFade samples (none of them final): the state stays in StealFade, the
counter advances by `k` and the level follows the fade formula. -/
theorem steal_chain (k : Nat) : ∀ e : EnvState, e.state = EState.StealFade →
    e.sampleCounter + k < e.stealFadeSamples → e.stealFadeSamples < U32 →
    (EnvState.iterNext k e).state = EState.StealFade ∧
    (EnvState.iterNext k e).sampleCounter = e.sampleCounter + k ∧
    (EnvState.iterNext k e).stealFadeSamples = e.stealFadeSamples ∧
    (EnvState.iterNext k e).stealFadeStartLevel = e.stealFadeStartLevel ∧
    (EnvState.iterNext k e).currentLevel =
      (if k = 0 then e.currentLevel
       else multfix15 e.stealFadeStartLevel
              (FIX15_ONE - envProgress (e.sampleCounter + k - 1) e.stealFadeSamples)) := by
  induction k with
  | zero =>
    intro e hst hcnt hU
    exact ⟨hst, by simp [EnvState.iterNext], rfl, rfl, by simp [EnvState.iterNext]⟩
  | succ k ih =>
    intro e hst hcnt hU
    obtain ⟨h1, h2, h3, h4, h5⟩ := steal_step e hst (by omega) hU
    rw [EnvState.iterNext_succ]
    obtain ⟨g1, g2, g3, g4, g5⟩ := ih (e.getNextValue).2 h1 (by omega) (by rw [h3]; exact hU)
    refine ⟨g1, ?_, ?_, ?_, ?_⟩
    · rw [g2, h2]; omega
    · rw [g3, h3]
    · rw [g4, h4]
    · rw [g5]
      rcases Nat.eq_zero_or_pos k with hk0 | hkpos
      · subst hk0
        simp [h5, h2]
      · rw [if_neg (by omega), if_neg (by omega), h4, h2, h3]
        have harg : e.sampleCounter + 1 + k - 1 = e.sampleCounter + (k + 1) - 1 := by omega
        rw [harg]

theorem EnvState.iterNext_right (n : Nat) (e : EnvState) :
    EnvState.iterNext (n + 1) e = ((EnvState.iterNext n e).getNextValue).2 := by
  rw [EnvState.iterNext_add n 1]
  rfl

/-- C2: `noteOn()` with `currentLevel > 0` (from any state) enters StealFade with
`stealFadeStartLevel = currentLevel` and `sampleCounter = 0`; over the following
`stealFadeSamples` calls to `getNextValue()` the returned level is monotonically
non-increasing, the level reaches exactly 0 on the final call, and only that
final call moves the state to Attack.  (`stealFadeSamples` is a positive
`uint32_t`, hence the two bounds.) -/
theorem claim_C2 (e : EnvState) (hL : 0 < e.currentLevel)
    (hS : 0 < e.stealFadeSamples) (hU : e.stealFadeSamples < U32) :
    e.noteOn.state = EState.StealFade ∧
    e.noteOn.stealFadeStartLevel = e.currentLevel ∧
    e.noteOn.sampleCounter = 0 ∧
    (∀ k, k < e.stealFadeSamples → (EnvState.iterNext k e.noteOn).state = EState.StealFade) ∧
    (∀ k, k + 2 ≤ e.stealFadeSamples →
      ((EnvState.iterNext (k + 1) e.noteOn).getNextValue).1 ≤
        ((EnvState.iterNext k e.noteOn).getNextValue).1) ∧
    (EnvState.iterNext e.stealFadeSamples e.noteOn).currentLevel = 0 ∧
    (EnvState.iterNext e.stealFadeSamples e.noteOn).state = EState.Attack := by
  have hne : e.noteOn = { e with state := EState.StealFade,
                                 stealFadeStartLevel := e.currentLevel,
                                 sampleCounter := 0 } := by
    unfold EnvState.noteOn
    rw [if_pos hL]
  have hst : e.noteOn.state = EState.StealFade := by rw [hne]
  have hsc : e.noteOn.sampleCounter = 0 := by rw [hne]
  have hsf : e.noteOn.stealFadeSamples = e.stealFadeSamples := by rw [hne]
  have hsl : e.noteOn.stealFadeStartLevel = e.currentLevel := by rw [hne]
  have hcl : e.noteOn.currentLevel = e.currentLevel := by rw [hne]
  -- levels along the fade
  have hlevel : ∀ k, 0 < k → k < e.stealFadeSamples →
      (EnvState.iterNext k e.noteOn).currentLevel =
        multfix15 e.currentLevel (FIX15_ONE - envProgress (k - 1) e.stealFadeSamples) := by
    intro k hk0 hkS
    obtain ⟨c1, c2, c3, c4, c5⟩ := steal_chain k e.noteOn hst
      (by rw [hsc, hsf]; omega) (by rw [hsf]; exact hU)
    rw [c5, if_neg (by omega), hsl, hsc, hsf, Nat.zero_add]
  -- the final sample
  have hS1 : e.stealFadeSamples = (e.stealFadeSamples - 1) + 1 := by omega
  obtain ⟨c1, c2, c3, c4, c5⟩ := steal_chain (e.stealFadeSamples - 1) e.noteOn hst
    (by rw [hsc, hsf]; omega) (by rw [hsf]; exact hU)
  have hfin := steal_final (EnvState.iterNext (e.stealFadeSamples - 1) e.noteOn) c1
    (by rw [c2, c3, hsc, hsf]; omega) (by rw [c3, hsf]; exact hU)
  have hiter : EnvState.iterNext e.stealFadeSamples e.noteOn =
      ((EnvState.iterNext (e.stealFadeSamples - 1) e.noteOn).getNextValue).2 := by
    conv_lhs => rw [hS1]
    exact EnvState.iterNext_right _ _
  refine ⟨hst, hsl, hsc, ?_, ?_, ?_, ?_⟩
  · intro k hk
    exact (steal_chain k e.noteOn hst (by rw [hsc, hsf]; omega) (by rw [hsf]; exact hU)).1
  · intro k hk
    rw [EnvState.value_eq_currentLevel, EnvState.value_eq_currentLevel,
        ← EnvState.iterNext_right, ← EnvState.iterNext_right]
    rcases Nat.lt_or_ge (k + 2) e.stealFadeSamples with hlt | hge
    · rw [hlevel (k + 2) (by omega) hlt, hlevel (k + 1) (by omega) (by omega)]
      refine multfix15_mono_right hL.le ?_
      have := envProgress_mono e.stealFadeSamples (show k + 1 - 1 ≤ k + 2 - 1 by omega)
      omega
    · have hk2 : k + 2 = e.stealFadeSamples := by omega
      rw [hk2, hiter, hfin.2.1, hlevel (k + 1) (by omega) (by omega)]
      refine multfix15_nonneg hL.le ?_
      have := envProgress_le_one (k + 1 - 1) e.stealFadeSamples
      omega
  · rw [hiter]; exact hfin.2.1
  · rw [hiter]; exact hfin.1

/-- A concrete envelope holding a level of 0.5 with a 3-sample steal fade. -/
def stealExample : EnvState :=
  { EnvState.init 441 2205 1 2 5 3 with state := EState.Sustain, currentLevel := 16384 }

/-- C2 witness: retriggering `stealExample` enters StealFade and after its
3 fade samples the level is exactly 0 and the state is Attack. -/
theorem claim_C2_witness :
    stealExample.noteOn.state = EState.StealFade ∧
    (EnvState.iterNext stealExample.stealFadeSamples stealExample.noteOn).currentLevel = 0 ∧
    (EnvState.iterNext stealExample.stealFadeSamples stealExample.noteOn).state = EState.Attack := by
  have h := claim_C2 stealExample (by decide) (by decide) (by decide)
  exact ⟨h.1, h.2.2.2.2.2.1, h.2.2.2.2.2.2⟩

/-! ### The level-range invariant (C9) -/

theorem step_bound_pos {d R : Int} (hR : 0 < R)
    (hpos : 0 < divfix15 d (int2fix15 R)) : R * divfix15 d (int2fix15 R) ≤ d := by
  have hB : (0 : Int) < R * 32768 := by nlinarith
  unfold divfix15 int2fix15 at *
  rcases le_or_lt 0 d with hd | hd
  · have hD : (0 : Int) ≤ d * 32768 := by nlinarith
    rw [Int.tdiv_eq_ediv hD hB.le] at *
    have h1 : d * 32768 / (R * 32768) * (R * 32768) ≤ d * 32768 :=
      Int.ediv_mul_le _ (ne_of_gt hB)
    nlinarith
  · exfalso
    have hneg : d * 32768 = -(-d * 32768) := by ring
    rw [hneg, Int.neg_tdiv] at hpos
    have : 0 ≤ (-d * 32768).tdiv (R * 32768) :=
      Int.tdiv_nonneg (by nlinarith) hB.le
    omega

theorem step_bound_neg {d R : Int} (hR : 0 < R)
    (hneg : divfix15 d (int2fix15 R) < 0) : d ≤ R * divfix15 d (int2fix15 R) := by
  have hB : (0 : Int) < R * 32768 := by nlinarith
  unfold divfix15 int2fix15 at *
  rcases le_or_lt 0 d with hd | hd
  · exfalso
    have : 0 ≤ (d * 32768).tdiv (R * 32768) :=
      Int.tdiv_nonneg (by nlinarith) hB.le
    omega
  · have hd32 : (0 : Int) ≤ -d * 32768 := by nlinarith
    have hstep_eq : (d * 32768).tdiv (R * 32768) = -(-d * 32768 / (R * 32768)) := by
      have h0 : d * 32768 = -(-d * 32768) := by ring
      rw [h0, Int.neg_tdiv, Int.tdiv_eq_ediv hd32 hB.le]
    rw [hstep_eq]
    have h1 : -d * 32768 / (R * 32768) * (R * 32768) ≤ -d * 32768 :=
      Int.ediv_mul_le _ (ne_of_gt hB)
    nlinarith

/-- Range invariant for a `Fix15SmoothedValue` driven with targets in [0, 32768]:
all stored values stay in range, and a live ramp can never step outside it. -/
def SmInv (s : Fix15SmoothedValue) : Prop :=
  0 ≤ s.currentValue ∧ s.currentValue ≤ 32768 ∧
  0 ≤ s.targetValue ∧ s.targetValue ≤ 32768 ∧
  0 ≤ s.pendingTarget ∧ s.pendingTarget ≤ 32768 ∧
  0 ≤ s.rampSamples ∧
  (0 < s.remainingSamples →
    (0 < s.step → s.currentValue + s.remainingSamples * s.step ≤ s.targetValue) ∧
    (s.step < 0 → s.targetValue ≤ s.currentValue + s.remainingSamples * s.step))

theorem smInv_setTargetValue {s : Fix15SmoothedValue} (h : SmInv s) {v : Int}
    (hv0 : 0 ≤ v) (hv1 : v ≤ 32768) : SmInv (s.setTargetValue v) := by
  obtain ⟨h1, h2, h3, h4, h5, h6, h7, h8⟩ := h
  exact ⟨h1, h2, h3, h4, hv0, hv1, h7, h8⟩

/-- The flag-consuming first half of `Fix15SmoothedValue.getNextValue`
(proof-side decomposition of the model function). -/
def smConsume (s : Fix15SmoothedValue) : Fix15SmoothedValue :=
  if s.rampSamples > 0 then
    { s with hasNewTarget := false, targetValue := s.pendingTarget,
             remainingSamples := s.rampSamples,
             step := divfix15 (s.pendingTarget - s.currentValue) (int2fix15 s.rampSamples) }
  else
    { s with hasNewTarget := false, targetValue := s.pendingTarget,
             remainingSamples := s.rampSamples,
             currentValue := s.pendingTarget, step := 0 }

theorem getNextValue_of_flag {s : Fix15SmoothedValue} (hf : s.hasNewTarget = true) :
    s.getNextValue = (smConsume s).getNextValue := by
  unfold Fix15SmoothedValue.getNextValue smConsume
  by_cases hR : s.rampSamples > 0 <;> simp [hf, hR]

theorem smInv_consume {s : Fix15SmoothedValue} (h : SmInv s) :
    SmInv (smConsume s) ∧ (smConsume s).hasNewTarget = false ∧
    (smConsume s).rampSamples = s.rampSamples := by
  obtain ⟨c, t, st, rem, ramp, pend, flag⟩ := s
  obtain ⟨h1, h2, h3, h4, h5, h6, h7, h8⟩ := h
  unfold smConsume
  by_cases hR : ramp > 0
  · rw [if_pos hR]
    refine ⟨⟨h1, h2, h5, h6, h5, h6, h7, ?_⟩, rfl, rfl⟩
    intro _
    refine ⟨?_, ?_⟩
    · intro hstep
      show c + ramp * divfix15 (pend - c) (int2fix15 ramp) ≤ pend
      have := step_bound_pos (d := pend - c) hR hstep
      omega
    · intro hstep
      show pend ≤ c + ramp * divfix15 (pend - c) (int2fix15 ramp)
      have := step_bound_neg (d := pend - c) hR hstep
      omega
  · rw [if_neg hR]
    refine ⟨⟨h5, h6, h5, h6, h5, h6, h7, ?_⟩, rfl, rfl⟩
    intro hrem
    exact absurd hrem hR

theorem smInv_advance {s : Fix15SmoothedValue} (h : SmInv s) (hf : s.hasNewTarget = false) :
    SmInv (s.getNextValue).2 ∧ (s.getNextValue).2.rampSamples = s.rampSamples := by
  obtain ⟨c, t, st, rem, ramp, pend, flag⟩ := s
  obtain ⟨h1, h2, h3, h4, h5, h6, h7, h8⟩ := h
  replace h1 : (0 : Int) ≤ c := h1
  replace h2 : c ≤ 32768 := h2
  replace h3 : (0 : Int) ≤ t := h3
  replace h4 : t ≤ 32768 := h4
  replace h5 : (0 : Int) ≤ pend := h5
  replace h6 : pend ≤ 32768 := h6
  replace h7 : (0 : Int) ≤ ramp := h7
  replace h8 : 0 < rem → (0 < st → c + rem * st ≤ t) ∧ (st < 0 → t ≤ c + rem * st) := h8
  replace hf : flag = false := hf
  subst hf
  unfold Fix15SmoothedValue.getNextValue
  by_cases hrem : rem > 0
  · by_cases hz : rem - 1 = 0
    · simp only [Bool.false_eq_true, if_false, if_pos hrem, hz, if_pos rfl]
      refine ⟨⟨h3, h4, h3, h4, h5, h6, h7, ?_⟩, by trivial⟩
      intro hrem2
      replace hrem2 : (0 : Int) < 0 := hrem2
      omega
    · simp only [Bool.false_eq_true, if_false, if_pos hrem, if_neg hz]
      have hb := h8 hrem
      refine ⟨⟨?_, ?_, h3, h4, h5, h6, h7, ?_⟩, by trivial⟩
      · show (0 : Int) ≤ c + st
        rcases lt_trichotomy st 0 with hst | hst | hst
        · have hineq := hb.2 hst
          have hprod : (rem - 1) * st ≤ 0 :=
            mul_nonpos_of_nonneg_of_nonpos (by omega) hst.le
          nlinarith
        · omega
        · omega
      · show c + st ≤ 32768
        rcases lt_trichotomy st 0 with hst | hst | hst
        · omega
        · omega
        · have hineq := hb.1 hst
          have hprod : 0 ≤ (rem - 1) * st :=
            mul_nonneg (by omega) hst.le
          nlinarith
      · intro hrem2
        refine ⟨?_, ?_⟩
        · intro hst
          replace hst : (0 : Int) < st := hst
          show c + st + (rem - 1) * st ≤ t
          have hineq := hb.1 hst
          nlinarith
        · intro hst
          replace hst : st < 0 := hst
          show t ≤ c + st + (rem - 1) * st
          have hineq := hb.2 hst
          nlinarith
  · simp only [Bool.false_eq_true, if_false, if_neg hrem]
    exact ⟨⟨h1, h2, h3, h4, h5, h6, h7, h8⟩, by trivial⟩

theorem smInv_getNextValue {s : Fix15SmoothedValue} (h : SmInv s) :
    SmInv (s.getNextValue).2 ∧ (s.getNextValue).2.rampSamples = s.rampSamples ∧
    0 ≤ (s.getNextValue).1 ∧ (s.getNextValue).1 ≤ 32768 := by
  have hval : ∀ t : Fix15SmoothedValue, (t.getNextValue).1 = (t.getNextValue).2.currentValue :=
    fun t => rfl
  by_cases hf : s.hasNewTarget
  · rw [getNextValue_of_flag hf]
    obtain ⟨hc1, hc2, hc3⟩ := smInv_consume h
    obtain ⟨ha1, ha2⟩ := smInv_advance hc1 hc2
    refine ⟨ha1, by rw [ha2, hc3], ?_, ?_⟩
    · rw [hval]
      exact ha1.1
    · rw [hval]
      exact ha1.2.1
  · obtain ⟨ha1, ha2⟩ := smInv_advance h (by simpa using hf)
    refine ⟨ha1, ha2, ?_, ?_⟩
    · rw [hval]
      exact ha1.1
    · rw [hval]
      exact ha1.2.1

/-- Range invariant for the envelope: every stored level lies in [0, FIX15_ONE]
and the sustain smoother satisfies its own range invariant. -/
def EnvInv (e : EnvState) : Prop :=
  0 ≤ e.currentLevel ∧ e.currentLevel ≤ 32768 ∧
  0 ≤ e.sustainLevel ∧ e.sustainLevel ≤ 32768 ∧
  0 ≤ e.releaseStartLevel ∧ e.releaseStartLevel ≤ 32768 ∧
  0 ≤ e.stealFadeStartLevel ∧ e.stealFadeStartLevel ≤ 32768 ∧
  SmInv e.sSustainLevel

theorem phaseStep_value (e : EnvState) (curA curD curR : Nat) :
    (e.phaseStep curA curD curR).1 = (e.phaseStep curA curD curR).2.currentLevel := by
  unfold EnvState.phaseStep
  split <;> (repeat' split) <;> rfl

theorem envInv_phaseStep {e : EnvState} (curA curD curR : Nat) (h : EnvInv e) :
    EnvInv (e.phaseStep curA curD curR).2 := by
  obtain ⟨h1, h2, h3, h4, h5, h6, h7, h8, h9⟩ := h
  have tz1 : (0 : Int) ≤ 0 := le_refl 0
  have tz2 : (0 : Int) ≤ 32768 := by decide
  have to1 : (0 : Int) ≤ FIX15_ONE := by decide
  have to2 : FIX15_ONE ≤ (32768 : Int) := by decide
  have hfade : ∀ c s : Nat, 0 ≤ FIX15_ONE - envProgress c s ∧ FIX15_ONE - envProgress c s ≤ 32768 := by
    intro c s
    have ha := envProgress_nonneg c s
    have hb := envProgress_le_one c s
    unfold FIX15_ONE at *
    omega
  unfold EnvState.phaseStep
  split
  · -- StealFade
    by_cases hS : e.stealFadeSamples > 0
    · by_cases hC : (e.sampleCounter + 1) % U32 ≥ e.stealFadeSamples
      · simp only [if_pos hS, if_pos hC]
        exact ⟨tz1, tz2, h3, h4, h5, h6, h7, h8, h9⟩
      · simp only [if_pos hS, if_neg hC]
        refine ⟨?_, ?_, h3, h4, h5, h6, h7, h8, h9⟩
        · exact multfix15_nonneg h7 (hfade e.sampleCounter e.stealFadeSamples).1
        · exact multfix15_le_one h8 (hfade e.sampleCounter e.stealFadeSamples).1
            (hfade e.sampleCounter e.stealFadeSamples).2
    · simp only [if_neg hS]
      exact ⟨tz1, tz2, h3, h4, h5, h6, h7, h8, h9⟩
  · -- Attack
    by_cases hA : curA > 0
    · have hP := envProgress_not_gt e.sampleCounter curA
      by_cases hC : (e.sampleCounter + 1) % U32 ≥ curA
      · simp only [if_pos hA, if_neg hP, if_pos hC]
        exact ⟨to1, to2, h3, h4, h5, h6, h7, h8, h9⟩
      · simp only [if_pos hA, if_neg hP, if_neg hC]
        exact ⟨envProgress_nonneg e.sampleCounter curA,
               envProgress_le_one e.sampleCounter curA, h3, h4, h5, h6, h7, h8, h9⟩
    · simp only [if_neg hA]
      exact ⟨to1, to2, h3, h4, h5, h6, h7, h8, h9⟩
  · -- Decay
    by_cases hD : curD > 0
    · have hP := envProgress_not_gt e.sampleCounter curD
      have hm0 : 0 ≤ multfix15 (envProgress e.sampleCounter curD) (FIX15_ONE - e.sustainLevel) :=
        multfix15_nonneg (envProgress_nonneg _ _) (by unfold FIX15_ONE at *; omega)
      have hm1 : multfix15 (envProgress e.sampleCounter curD) (FIX15_ONE - e.sustainLevel) ≤ 32768 :=
        multfix15_le_one (envProgress_le_one _ _) (by unfold FIX15_ONE at *; omega)
          (by unfold FIX15_ONE at *; omega)
      by_cases hC : (e.sampleCounter + 1) % U32 ≥ curD
      · simp only [if_pos hD, if_neg hP, if_pos hC]
        exact ⟨h3, h4, h3, h4, h5, h6, h7, h8, h9⟩
      · simp only [if_pos hD, if_neg hP, if_neg hC]
        refine ⟨?_, ?_, h3, h4, h5, h6, h7, h8, h9⟩
        · show (0 : Int) ≤ FIX15_ONE -
            multfix15 (envProgress e.sampleCounter curD) (FIX15_ONE - e.sustainLevel)
          unfold FIX15_ONE at *
          omega
        · show FIX15_ONE -
            multfix15 (envProgress e.sampleCounter curD) (FIX15_ONE - e.sustainLevel) ≤ 32768
          unfold FIX15_ONE at *
          omega
    · simp only [if_neg hD]
      exact ⟨h3, h4, h3, h4, h5, h6, h7, h8, h9⟩
  · -- Sustain
    by_cases hT : e.sSustainLevel.targetValue = 0
    · simp only [if_pos hT]
      exact ⟨tz1, tz2, h3, h4, h5, h6, h7, h8, h9⟩
    · simp only [if_neg hT]
      exact ⟨h3, h4, h3, h4, h5, h6, h7, h8, h9⟩
  · -- Release
    by_cases hR : curR > 0
    · have hP := envProgress_not_gt e.sampleCounter curR
      by_cases hC : (e.sampleCounter + 1) % U32 ≥ curR
      · simp only [if_pos hR, if_neg hP, if_pos hC]
        exact ⟨tz1, tz2, h3, h4, h5, h6, h7, h8, h9⟩
      · simp only [if_pos hR, if_neg hP, if_neg hC]
        refine ⟨?_, ?_, h3, h4, h5, h6, h7, h8, h9⟩
        · exact multfix15_nonneg h5 (hfade e.sampleCounter curR).1
        · exact multfix15_le_one h6 (hfade e.sampleCounter curR).1 (hfade e.sampleCounter curR).2
    · simp only [if_neg hR]
      exact ⟨tz1, tz2, h3, h4, h5, h6, h7, h8, h9⟩
  · -- Idle
    exact ⟨tz1, tz2, h3, h4, h5, h6, h7, h8, h9⟩

theorem envInv_getNextValue {e : EnvState} (h : EnvInv e) :
    EnvInv (e.getNextValue).2 ∧ 0 ≤ (e.getNextValue).1 ∧ (e.getNextValue).1 ≤ 32768 := by
  obtain ⟨h1, h2, h3, h4, h5, h6, h7, h8, h9⟩ := h
  obtain ⟨hs1, hs2, hs3, hs4⟩ := smInv_getNextValue h9
  have htick : EnvInv { e with sustainLevel := (e.sSustainLevel.getNextValue).1,
                               sSustainLevel := (e.sSustainLevel.getNextValue).2,
                               sAttackSamples := (e.sAttackSamples.getNextValue).2,
                               sDecaySamples := (e.sDecaySamples.getNextValue).2,
                               sReleaseSamples := (e.sReleaseSamples.getNextValue).2 } :=
    ⟨h1, h2, hs3, hs4, h5, h6, h7, h8, hs1⟩
  have hmain := envInv_phaseStep (e := { e with
      sustainLevel := (e.sSustainLevel.getNextValue).1,
      sSustainLevel := (e.sSustainLevel.getNextValue).2,
      sAttackSamples := (e.sAttackSamples.getNextValue).2,
      sDecaySamples := (e.sDecaySamples.getNextValue).2,
      sReleaseSamples := (e.sReleaseSamples.getNextValue).2 })
    (e.sAttackSamples.getNextValue).1 (e.sDecaySamples.getNextValue).1
    (e.sReleaseSamples.getNextValue).1 htick
  refine ⟨hmain, ?_, ?_⟩
  · rw [show (e.getNextValue).1 = (e.getNextValue).2.currentLevel from by
      unfold EnvState.getNextValue; exact phaseStep_value _ _ _ _]
    exact hmain.1
  · rw [show (e.getNextValue).1 = (e.getNextValue).2.currentLevel from by
      unfold EnvState.getNextValue; exact phaseStep_value _ _ _ _]
    exact hmain.2.1

theorem envInv_applyOp {e : EnvState} (h : EnvInv e) {op : EnvOp} (hv : op.valid = true) :
    EnvInv (e.applyOp op) := by
  have tz1 : (0 : Int) ≤ 0 := le_refl 0
  have tz2 : (0 : Int) ≤ 32768 := by decide
  obtain ⟨h1, h2, h3, h4, h5, h6, h7, h8, h9⟩ := h
  cases op with
  | noteOn =>
    unfold EnvState.applyOp EnvState.noteOn
    by_cases hl : e.currentLevel > 0
    · rw [if_pos hl]
      exact ⟨h1, h2, h3, h4, h5, h6, h1, h2, h9⟩
    · rw [if_neg hl]
      exact ⟨tz1, tz2, h3, h4, h5, h6, h7, h8, h9⟩
  | noteOff =>
    unfold EnvState.applyOp EnvState.noteOff
    by_cases hs : e.state = EState.Idle
    · rw [if_pos hs]
      exact ⟨h1, h2, h3, h4, h5, h6, h7, h8, h9⟩
    · rw [if_neg hs]
      exact ⟨h1, h2, h3, h4, h1, h2, h7, h8, h9⟩
  | setAttackTime n =>
    exact ⟨h1, h2, h3, h4, h5, h6, h7, h8, h9⟩
  | setDecayTime n =>
    exact ⟨h1, h2, h3, h4, h5, h6, h7, h8, h9⟩
  | setReleaseTime n =>
    exact ⟨h1, h2, h3, h4, h5, h6, h7, h8, h9⟩
  | setSustainLevel v =>
    have hv2 : 0 ≤ v ∧ v ≤ 32768 := by
      unfold EnvOp.valid at hv
      constructor <;> [skip; skip] <;> simp at hv <;> omega
    exact ⟨h1, h2, h3, h4, h5, h6, h7, h8,
      smInv_setTargetValue h9 hv2.1 hv2.2⟩
  | next =>
    exact (envInv_getNextValue ⟨h1, h2, h3, h4, h5, h6, h7, h8, h9⟩).1

theorem envInv_runOps {e : EnvState} (h : EnvInv e) :
    ∀ ops : List EnvOp, (∀ op ∈ ops, op.valid = true) → EnvInv (e.runOps ops) := by
  intro ops
  induction ops generalizing e with
  | nil => intro _; exact h
  | cons op rest ih =>
    intro hops
    have hop : op.valid = true := hops op (by simp)
    have hrest : ∀ o ∈ rest, o.valid = true := fun o ho => hops o (by simp [ho])
    exact ih (envInv_applyOp h hop) hrest

theorem envInv_init (sustainRamp timeRamp attackS decayS releaseS stealS : Nat) :
    EnvInv (EnvState.init sustainRamp timeRamp attackS decayS releaseS stealS) := by
  have tz1 : (0 : Int) ≤ 0 := le_refl 0
  have tz2 : (0 : Int) ≤ 32768 := by decide
  have ts1 : (0 : Int) ≤ 22937 := by decide
  have ts2 : (22937 : Int) ≤ 32768 := by decide
  refine ⟨tz1, tz2, ts1, ts2, tz1, tz2, tz1, tz2, ts1, ts2, ts1, ts2, tz1, tz2, ?_, ?_⟩
  · show (0 : Int) ≤ (sustainRamp : Int)
    positivity
  · intro hrem
    replace hrem : (0 : Int) < 0 := hrem
    omega

/-- C9: starting from a freshly constructed envelope, under any sequence of
`noteOn()`, `noteOff()`, `setAttackTime`/`setDecayTime`/`setReleaseTime`,
`setSustainLevel` (whose clamped-float argument always yields a fix15 in
[0, 32768]) and `getNextValue()` calls, `currentLevel` stays within
[0, FIX15_ONE], and so does the value returned by any further
`getNextValue()`. -/
theorem claim_C9 (sustainRamp timeRamp attackS decayS releaseS stealS : Nat)
    (ops : List EnvOp) (hops : ∀ op ∈ ops, op.valid = true) :
    0 ≤ ((EnvState.init sustainRamp timeRamp attackS decayS releaseS stealS).runOps
          ops).currentLevel ∧
    ((EnvState.init sustainRamp timeRamp attackS decayS releaseS stealS).runOps
          ops).currentLevel ≤ FIX15_ONE ∧
    0 ≤ (((EnvState.init sustainRamp timeRamp attackS decayS releaseS stealS).runOps
          ops).getNextValue).1 ∧
    (((EnvState.init sustainRamp timeRamp attackS decayS releaseS stealS).runOps
          ops).getNextValue).1 ≤ FIX15_ONE := by
  have hinv := envInv_runOps
    (envInv_init sustainRamp timeRamp attackS decayS releaseS stealS) ops hops
  have hnext := envInv_getNextValue hinv
  exact ⟨hinv.1, hinv.2.1, hnext.2.1, hnext.2.2⟩

/-- C9 witness: a concrete run — note-on, two samples, a sustain change to a
small value, a sample, note-off, one release sample — stays inside [0, 1]. -/
theorem claim_C9_witness :
    (∀ op ∈ ([.noteOn, .next, .next, .setSustainLevel 101, .next, .noteOff, .next] :
        List EnvOp), op.valid = true) ∧
    0 ≤ ((EnvState.init 441 2205 1 2 5 3).runOps
          [.noteOn, .next, .next, .setSustainLevel 101, .next, .noteOff, .next]).currentLevel ∧
    ((EnvState.init 441 2205 1 2 5 3).runOps
          [.noteOn, .next, .next, .setSustainLevel 101, .next, .noteOff, .next]).currentLevel
        ≤ FIX15_ONE := by
  have h := claim_C9 441 2205 1 2 5 3
    [.noteOn, .next, .next, .setSustainLevel 101, .next, .noteOff, .next] (by decide)
  exact ⟨by decide, h.1, h.2.1⟩

/-! ### Fix15Oscillators.h — phase accumulator and pulse oscillator -/

structure Phase where
  phase : Int
  increment : Int
  deriving DecidableEq

namespace Phase

def resetPhase (p : Phase) : Phase := { p with phase := 0 }

/-- `Phase::setFrequency` computes the increment from floats
(`float2fix15((frequency * fix152float(wrapLimit)) / sampleRate)`); the model
receives the resulting fix15 increment. -/
def setFrequencyInc (p : Phase) (inc : Int) : Phase := { p with increment := inc }

/-- `Phase::next(wrapLimit)`: returns the current phase, then advances and wraps
once past the limit. -/
def next (p : Phase) (wrapLimit : Int) : Int × Phase :=
  let currentPhase := p.phase
  let ph := p.phase + p.increment
  let ph := if ph ≥ wrapLimit then ph - wrapLimit else ph
  (currentPhase, { p with phase := ph })

end Phase

/-- `Pulse` (variable pulse width oscillator); constructed at 50% duty cycle. -/
structure Pulse where
  phase : Phase
  pulseWidth : Int
  deriving DecidableEq

namespace Pulse

def setPulseWidth (o : Pulse) (width : Int) : Pulse := { o with pulseWidth := width }

/-- `Pulse::getSample()`. -/
def getSample (o : Pulse) : Int × Pulse :=
  let r := o.phase.next FIX15_ONE
  ((if r.1 < o.pulseWidth then -FIX15_ONE else FIX15_ONE), { o with phase := r.2 })

end Pulse

/-- C4 counterexample: a pulse oscillator at phase 0 with width 0.5 returns
`-FIX15_ONE`, not the `+FIX15_ONE` the claim requires for `phase < width`. -/
theorem claim_C4_counterexample :
    ((Pulse.getSample { phase := { phase := 0, increment := 0 },
                        pulseWidth := FIX15_HALF }).1 = -FIX15_ONE) ∧
    ((0 : Int) < FIX15_HALF) ∧
    ¬((Pulse.getSample { phase := { phase := 0, increment := 0 },
                         pulseWidth := FIX15_HALF }).1 = FIX15_ONE) := by
  refine ⟨by decide, by decide, by decide⟩

/-- C4 amended: each `Pulse::getSample()` returns `-FIX15_ONE` exactly when the
current phase value is below the pulse width and `+FIX15_ONE` otherwise (the
polarity is deliberately inverted relative to the saw, per the source comment);
the sample is computed from the pre-advance phase, and the width and increment
are left unchanged. -/
theorem claim_C4_amended (o : Pulse) :
    ((o.getSample).1 = if o.phase.phase < o.pulseWidth then -FIX15_ONE else FIX15_ONE) ∧
    ((o.getSample).1 = -FIX15_ONE ↔ o.phase.phase < o.pulseWidth) ∧
    ((o.getSample).2.pulseWidth = o.pulseWidth) ∧
    ((o.getSample).2.phase.increment = o.phase.increment) := by
  refine ⟨rfl, ?_, rfl, ?_⟩
  · unfold Pulse.getSample Phase.next
    by_cases hp : o.phase.phase < o.pulseWidth
    · simp [hp]
    · simp [hp]
      decide
  · unfold Pulse.getSample Phase.next
    by_cases hw : o.phase.phase + o.phase.increment ≥ FIX15_ONE <;> simp [hw]

/-! ### The ladder filters: `VoiceFilter` (SimpleFixedOscModule.h) and
`FilterModule` (FilterModule.h, one channel of the stereo loop) -/

structure VoiceFilterState where
  stage1 : Int
  stage2 : Int
  stage3 : Int
  stage4 : Int
  deriving DecidableEq

namespace VoiceFilter

/-- `VoiceFilter::process(input, cutoff, resonance)` from SimpleFixedOscModule.h:
resonance scaled by 4.5 (147456), feedback clamped to ±FIX15_ONE, no stage4
clamp, makeup gain by three shift-adds (≈2.109×), no final clamp. -/
def process (st : VoiceFilterState) (input cutoff resonance : Int) : Int × VoiceFilterState :=
  let g := multfix15 cutoff 27787 + 33
  let res := multfix15 resonance 147456
  let fb := input - multfix15 res st.stage4
  let fb := if fb > FIX15_ONE then FIX15_ONE else if fb < -FIX15_ONE then -FIX15_ONE else fb
  let s1 := st.stage1 + multfix15 g (fb - st.stage1)
  let s2 := st.stage2 + multfix15 g (s1 - st.stage2)
  let s3 := st.stage3 + multfix15 g (s2 - st.stage3)
  let s4 := st.stage4 + multfix15 g (s3 - st.stage4)
  let output := s4 + Int.fdiv s4 2
  let output := output + Int.fdiv output 4
  let output := output + Int.fdiv output 8
  (output, { stage1 := s1, stage2 := s2, stage3 := s3, stage4 := s4 })

end VoiceFilter

namespace FilterModule

/-- One channel of one frame of `FilterModule::process` (FilterModule.h), after
the smoothed cutoff/resonance parameters have been read. -/
def processSample (st : VoiceFilterState) (input cutoffParam resonanceParam : Int) :
    Int × VoiceFilterState :=
  let g := multfix15 cutoffParam 27787 + 33
  let res := multfix15 resonanceParam 127795
  let fb := input - multfix15 res st.stage4
  let fb := if fb > 524288 then 524288 else if fb < -524288 then -524288 else fb
  let s1 := st.stage1 + multfix15 g (fb - st.stage1)
  let s2 := st.stage2 + multfix15 g (s1 - st.stage2)
  let s3 := st.stage3 + multfix15 g (s2 - st.stage3)
  let s4 := st.stage4 + multfix15 g (s3 - st.stage4)
  let s4 := if s4 > 262144 then 262144 else if s4 < -262144 then -262144 else s4
  let output := multfix15 s4 81920
  let output := if output > 524288 then 524288 else if output < -524288 then -524288 else output
  (output, { stage1 := s1, stage2 := s2, stage3 := s3, stage4 := s4 })

end FilterModule

/-- Modelled from the words of claim C5 (and spec §4.6): `res = 3.9 ·
resonance_norm` (127795), feedback input clamped to ±16.0 (524288), four
one-pole stages with `g = 0.001 + 0.849 · cutoff_norm` (33, 27787), `stage4`
clamped to ±8.0 (262144), makeup gain 2.5× (81920), final clamp to ±16.0. -/
def ladderSpecC5 (st : VoiceFilterState) (input cutoff resonance : Int) :
    Int × VoiceFilterState :=
  let g := 33 + multfix15 cutoff 27787
  let res := multfix15 resonance 127795
  let fb := clampfix15 (input - multfix15 res st.stage4) (-524288) 524288
  let s1 := st.stage1 + multfix15 g (fb - st.stage1)
  let s2 := st.stage2 + multfix15 g (s1 - st.stage2)
  let s3 := st.stage3 + multfix15 g (s2 - st.stage3)
  let s4 := clampfix15 (st.stage4 + multfix15 g (s3 - st.stage4)) (-262144) 262144
  let output := clampfix15 (multfix15 s4 81920) (-524288) 524288
  (output, { stage1 := s1, stage2 := s2, stage3 := s3, stage4 := s4 })

/-- C5 counterexample: on a zeroed filter fed a full-scale sample with cutoff
and resonance at 1.0, the per-voice `VoiceFilter` produces a different output
than the ladder the claim describes. -/
theorem claim_C5_counterexample :
    (VoiceFilter.process ⟨0, 0, 0, 0⟩ FIX15_ONE FIX15_ONE FIX15_ONE).1 ≠
    (ladderSpecC5 ⟨0, 0, 0, 0⟩ FIX15_ONE FIX15_ONE FIX15_ONE).1 := by
  decide

theorem clamp_flip (v hi : Int) (hpos : 0 < hi) :
    (if v > hi then hi else if v < -hi then -hi else v) = clampfix15 v (-hi) hi := by
  unfold clampfix15
  split <;> (repeat' split) <;> omega

/-- C5 amended: the constants the claim lists (res = 3.9·resonance = 127795,
feedback clamp ±16.0, stage4 clamp ±8.0 = 262144, makeup 2.5× = 81920, final
clamp ±16.0 = 524288) belong to the global `FilterModule`, whose per-sample
computation coincides with the claimed ladder on every input; the per-voice
`VoiceFilter` instead maps res = 4.5·resonance (147456), clamps the feedback
input to ±1.0 (FIX15_ONE), never clamps stage4 or the output, and applies a
makeup gain of ≈2.109× by three successive shift-adds. -/
theorem claim_C5_amended (st : VoiceFilterState) (input cutoff resonance : Int) :
    FilterModule.processSample st input cutoff resonance =
      ladderSpecC5 st input cutoff resonance ∧
    VoiceFilter.process st input cutoff resonance =
      (let g := 33 + multfix15 cutoff 27787
       let fb := clampfix15 (input - multfix15 (multfix15 resonance 147456) st.stage4)
                   (-FIX15_ONE) FIX15_ONE
       let s1 := st.stage1 + multfix15 g (fb - st.stage1)
       let s2 := st.stage2 + multfix15 g (s1 - st.stage2)
       let s3 := st.stage3 + multfix15 g (s2 - st.stage3)
       let s4 := st.stage4 + multfix15 g (s3 - st.stage4)
       let m1 := s4 + Int.fdiv s4 2
       let m2 := m1 + Int.fdiv m1 4
       (m2 + Int.fdiv m2 8, ⟨s1, s2, s3, s4⟩)) := by
  have hcomm : multfix15 cutoff 27787 + 33 = 33 + multfix15 cutoff 27787 := by ring
  have h524 : ∀ v : Int, (if v > 524288 then (524288 : Int)
      else if v < -524288 then -524288 else v) = clampfix15 v (-524288) 524288 :=
    fun v => clamp_flip v 524288 (by norm_num)
  have h262 : ∀ v : Int, (if v > 262144 then (262144 : Int)
      else if v < -262144 then -262144 else v) = clampfix15 v (-262144) 262144 :=
    fun v => clamp_flip v 262144 (by norm_num)
  have hone : ∀ v : Int, (if v > FIX15_ONE then FIX15_ONE
      else if v < -FIX15_ONE then -FIX15_ONE else v) = clampfix15 v (-FIX15_ONE) FIX15_ONE :=
    fun v => clamp_flip v FIX15_ONE (by decide)
  constructor
  · unfold FilterModule.processSample ladderSpecC5
    dsimp only
    rw [hcomm, h524, h262, h524]
  · unfold VoiceFilter.process
    dsimp only
    rw [hcomm, hone]

/-! ### MidiSerialListener.h / SimpleFixedOscModule.h — inter-core packets -/

/-- `MidiSerialListener::sendNoteToCore1`:
`uint32_t packet = (command << 24) | (data1 << 16) | (data2 << 8)` (byte 0 stays
zero); the stored `uint32_t` is the value modulo 2^32. -/
def sendNoteToCore1Packet (command data1 data2 : Nat) : Nat :=
  ((command <<< 24) ||| (data1 <<< 16) ||| (data2 <<< 8)) % 4294967296

/-- `SimpleFixedOscModule::updateControlSignals`: `command = (packet >> 24) & 0xFF`. -/
def packetCommand (packet : Nat) : Nat := (packet >>> 24) &&& 0xFF

/-- `data1 = (packet >> 16) & 0xFF`. -/
def packetData1 (packet : Nat) : Nat := (packet >>> 16) &&& 0xFF

/-- `data2 = (packet >> 8) & 0xFF`. -/
def packetData2 (packet : Nat) : Nat := (packet >>> 8) &&& 0xFF

theorem packet_eq_sum {c d1 d2 : Nat} (hc : c < 256) (h1 : d1 < 256) (h2 : d2 < 256) :
    sendNoteToCore1Packet c d1 d2 = c * 16777216 + d1 * 65536 + d2 * 256 := by
  unfold sendNoteToCore1Packet
  rw [Nat.shiftLeft_eq, Nat.shiftLeft_eq, Nat.shiftLeft_eq]
  have e2 : d2 * 2 ^ 8 = 2 ^ 8 * d2 := by ring
  have e1 : d1 * 2 ^ 16 = 2 ^ 16 * d1 := by ring
  have ec : c * 2 ^ 24 = 2 ^ 24 * c := by ring
  rw [e2, e1, ec]
  rw [← Nat.mul_add_lt_is_or (by omega : 2 ^ 16 * d1 < 2 ^ 24) c]
  have hre : 2 ^ 24 * c + 2 ^ 16 * d1 = 2 ^ 16 * (2 ^ 8 * c + d1) := by ring
  rw [hre, ← Nat.mul_add_lt_is_or (by omega : 2 ^ 8 * d2 < 2 ^ 16) (2 ^ 8 * c + d1)]
  have hlt : 2 ^ 16 * (2 ^ 8 * c + d1) + 2 ^ 8 * d2 < 4294967296 := by omega
  rw [Nat.mod_eq_of_lt hlt]
  ring

/-- C7: packing `(command, data1, data2)` into a 32-bit packet with command in
byte 3, data1 in byte 2, data2 in byte 1 and byte 0 zero, then unpacking by
shifts and masks on the audio side, recovers the original bytes exactly. -/
theorem claim_C7 (c d1 d2 : Nat) (hc : c < 256) (h1 : d1 < 256) (h2 : d2 < 256) :
    packetCommand (sendNoteToCore1Packet c d1 d2) = c ∧
    packetData1 (sendNoteToCore1Packet c d1 d2) = d1 ∧
    packetData2 (sendNoteToCore1Packet c d1 d2) = d2 ∧
    sendNoteToCore1Packet c d1 d2 &&& 0xFF = 0 := by
  have hmod : ∀ x : Nat, x &&& 0xFF = x % 256 := by
    intro x
    have := Nat.and_pow_two_sub_one_eq_mod x 8
    norm_num at this
    exact this
  have hsum := packet_eq_sum hc h1 h2
  unfold packetCommand packetData1 packetData2
  rw [hsum, hmod, hmod, hmod, hmod,
      Nat.shiftRight_eq_div_pow, Nat.shiftRight_eq_div_pow, Nat.shiftRight_eq_div_pow]
  norm_num
  omega

/-- C7 witness: a note-on for middle C at velocity 100 round-trips. -/
theorem claim_C7_witness :
    (144 : Nat) < 256 ∧
    packetCommand (sendNoteToCore1Packet 144 60 100) = 144 ∧
    packetData1 (sendNoteToCore1Packet 144 60 100) = 60 ∧
    packetData2 (sendNoteToCore1Packet 144 60 100) = 100 := by
  have h := claim_C7 144 60 100 (by decide) (by decide) (by decide)
  exact ⟨by decide, h.1, h.2.1, h.2.2.1⟩

/-! ### Parameter.h / ParameterStore.h / MidiSerialListener.h — SYNC_KNOBS

Parameter values are C floats; the float arithmetic involved here (range
endpoints, normalisation) is idealised as exact rational arithmetic, which
preserves the structure the claim is about (which lines are emitted, in which
order, and which value each line carries). -/

structure Parameter where
  parameterID : String
  displayName : String
  minimum : ℚ
  maximum : ℚ
  value : ℚ
  ccNumber : Nat
  deriving DecidableEq

namespace Parameter

/-- The constructor clamps the default value into `[minimum, maximum]`. -/
def mkP (id name : String) (mn mx df : ℚ) (cc : Nat) : Parameter :=
  { parameterID := id, displayName := name, minimum := mn, maximum := mx,
    value := if df < mn then mn else if df > mx then mx else df, ccNumber := cc }

/-- `Parameter::getNormalizedValue() = (value - min) / (max - min)`. -/
def getNormalizedValue (p : Parameter) : ℚ := (p.value - p.minimum) / (p.maximum - p.minimum)

end Parameter

/-- `initialize_parameters()` from ParameterStore.h: the canonical registration
order of the global store. -/
def init_parameters : List Parameter :=
  [Parameter.mkP "attack" "Attack" 0.001 2.5 0.01 74,
   Parameter.mkP "decay" "Decay" 0.003 2.0 0.2 71,
   Parameter.mkP "sustain" "Sustain" 0.0 1.0 0.3 73,
   Parameter.mkP "release" "Release" 0.01 5.0 0.1 72,
   Parameter.mkP "sawLevel" "Saw Level" 0.0 1.0 1.0 79,
   Parameter.mkP "pulseLevel" "Pulse Level" 0.0 1.0 0.0 80,
   Parameter.mkP "subLevel" "Sub Level" 0.0 1.0 0.0 82,
   Parameter.mkP "noiseLevel" "Noise Level" 0.0 1.0 0.0 78,
   Parameter.mkP "pulseWidth" "Pulse Width" 0.05 0.95 0.5 81,
   Parameter.mkP "filterCutoff" "Cutoff" 0.0 1.0 0.5 76,
   Parameter.mkP "filterResonance" "Resonance" 0.0 1.0 0.2 77,
   Parameter.mkP "masterVol" "Master Volume" 0.0 1.0 0.05 75]

/-- One line of serial output from the control side.  `stateLine` carries the
normalized value handed to `printf("STATE:%d:%.3f")`; the 3-decimal text
rendering itself is float formatting and is not modelled beyond that value. -/
inductive SerialOut where
  | knobUpdateStart
  | ccDef (cc : Nat) (name : String)
  | stateLine (cc : Nat) (normalized : ℚ)
  | knobUpdateEnd
  | log (text : String)
  deriving DecidableEq

/-- `MidiSerialListener::handleAsciiCommand`: on `SYNC_KNOBS` it prints
`KNOB_UPDATE_START`, then one `CC_DEF` line per parameter (first loop), then one
`STATE` line per parameter (second loop), then `KNOB_UPDATE_END`; any other line
is echoed with a `LOG:` prefix.  The printf accumulation is modelled by folding
over the store in order. -/
def handleAsciiCommand (buffer : String) (store : List Parameter) : List SerialOut :=
  if buffer = "SYNC_KNOBS" then
    [SerialOut.knobUpdateStart] ++
    store.foldl (fun acc p => acc ++ [SerialOut.ccDef p.ccNumber p.displayName]) [] ++
    store.foldl (fun acc p => acc ++ [SerialOut.stateLine p.ccNumber p.getNormalizedValue]) [] ++
    [SerialOut.knobUpdateEnd]
  else
    [SerialOut.log buffer]

theorem foldl_emit_eq_map {α β : Type} (f : α → β) :
    ∀ (l : List α) (acc : List β),
      l.foldl (fun a x => a ++ [f x]) acc = acc ++ l.map f := by
  intro l
  induction l with
  | nil => intro acc; simp
  | cons x xs ih =>
    intro acc
    simp only [List.foldl_cons, List.map_cons]
    rw [ih]
    simp

/-- C8: on receiving `SYNC_KNOBS`, the control side emits exactly one
`KNOB_UPDATE_START`, then one `CC_DEF:<cc>:<name>` line per parameter in store
order, then one `STATE:<cc>:<normalized>` line per parameter in the same order
carrying the store's current normalized values, then one `KNOB_UPDATE_END`; and
the canonical store order registers the CCs 74, 71, 73, 72, 79, 80, 82, 78, 81,
76, 77, 75 with the matching display names. -/
theorem claim_C8 (store : List Parameter) :
    handleAsciiCommand "SYNC_KNOBS" store =
      [SerialOut.knobUpdateStart] ++
      store.map (fun p => SerialOut.ccDef p.ccNumber p.displayName) ++
      store.map (fun p => SerialOut.stateLine p.ccNumber p.getNormalizedValue) ++
      [SerialOut.knobUpdateEnd] ∧
    init_parameters.map Parameter.ccNumber =
      [74, 71, 73, 72, 79, 80, 82, 78, 81, 76, 77, 75] ∧
    init_parameters.map Parameter.displayName =
      ["Attack", "Decay", "Sustain", "Release", "Saw Level", "Pulse Level",
       "Sub Level", "Noise Level", "Pulse Width", "Cutoff", "Resonance",
       "Master Volume"] := by
  refine ⟨?_, by decide, by decide⟩
  unfold handleAsciiCommand
  rw [if_pos rfl, foldl_emit_eq_map, foldl_emit_eq_map]
  simp

/-! ### SimpleFixedOscModule.h — voices and the note-on/note-off logic

`NUM_VOICES = 4` is a compile-time constant, so the voice vector is modelled as
a four-slot bank and the source's `for` loops over it as their four-step
unrollings (first match wins, exactly as the loops return early). -/

structure Voice where
  sawOsc : Phase
  pulseOsc : Pulse
  subOsc : Phase
  noiseSeed : Nat
  envelope : EnvState
  filter : VoiceFilterState
  midiNote : Nat
  isActive : Bool
  velocity : Int
  sVelocity : Fix15SmoothedValue
  deriving DecidableEq

namespace Voice

/-- `Voice::noteOn(note, vel, sample_rate)`: sets the note and velocity, resets
every oscillator phase (noise reseeds to 1), programs the oscillator
frequencies, retargets the velocity smoother and delegates to the envelope.
The frequency programming goes through a float lookup table and float
`setFrequency`; the model receives the resulting increments `inc` (saw and
pulse) and `subInc` (sub oscillator at half frequency). -/
def noteOn (v : Voice) (note : Nat) (vel : Int) (inc subInc : Int) : Voice :=
  { v with midiNote := note, isActive := true, velocity := vel,
           sawOsc := { phase := 0, increment := inc },
           pulseOsc := { v.pulseOsc with phase := { phase := 0, increment := inc } },
           subOsc := { phase := 0, increment := subInc },
           noiseSeed := 1,
           sVelocity := v.sVelocity.setTargetValue vel,
           envelope := v.envelope.noteOn }

/-- `Voice::noteOff()`: a no-op unless the key is still held. -/
def noteOff (v : Voice) : Voice :=
  if v.isActive = false then v
  else { v with isActive := false, envelope := v.envelope.noteOff }

end Voice

structure VoiceBank where
  v0 : Voice
  v1 : Voice
  v2 : Voice
  v3 : Voice
  deriving DecidableEq

namespace VoiceBank

def get (b : VoiceBank) (i : Fin 4) : Voice :=
  if i.val = 0 then b.v0
  else if i.val = 1 then b.v1
  else if i.val = 2 then b.v2
  else b.v3

def set (b : VoiceBank) (i : Fin 4) (v : Voice) : VoiceBank :=
  if i.val = 0 then { b with v0 := v }
  else if i.val = 1 then { b with v1 := v }
  else if i.val = 2 then { b with v2 := v }
  else { b with v3 := v }

end VoiceBank

/-- Condition of the retrigger loop in `handleNoteOn`:
`voice.midiNote == note && (voice.isActive || voice.envelope.isActive())`. -/
def matchesNote (note : Nat) (v : Voice) : Prop :=
  v.midiNote = note ∧ (v.isActive = true ∨ v.envelope.state ≠ EState.Idle)

instance (note : Nat) (v : Voice) : Decidable (matchesNote note v) := by
  unfold matchesNote
  infer_instance

/-- One iteration of the stealing scan (step 4 of `handleNoteOn`): the candidate
`best` is replaced by voice `i` only when both envelopes are in Sustain and
voice `i`'s envelope level compares lower; the comparison calls
`envelope.getNextValue()` on both voices, advancing their envelopes. -/
def stealStep (s : Fin 4 × VoiceBank) (i : Fin 4) : Fin 4 × VoiceBank :=
  let best := s.1
  let b := s.2
  if (b.get i).envelope.state = EState.Sustain ∧
     (b.get best).envelope.state = EState.Sustain then
    let ri := ((b.get i).envelope).getNextValue
    let b1 := b.set i { b.get i with envelope := ri.2 }
    let rb := ((b1.get best).envelope).getNextValue
    let b2 := b1.set best { b1.get best with envelope := rb.2 }
    (if ri.1 < rb.1 then i else best, b2)
  else
    (best, b)

/-- `SimpleFixedOscModule::handleNoteOn`: (1) retrigger the first voice already
holding the note, else (2) the first voice whose envelope is Idle, else (3) the
first voice in Release, else (4) the voice chosen by the stealing scan. -/
def handleNoteOn (b : VoiceBank) (note : Nat) (vel : Int) (inc subInc : Int) : VoiceBank :=
  if matchesNote note b.v0 then { b with v0 := b.v0.noteOn note vel inc subInc }
  else if matchesNote note b.v1 then { b with v1 := b.v1.noteOn note vel inc subInc }
  else if matchesNote note b.v2 then { b with v2 := b.v2.noteOn note vel inc subInc }
  else if matchesNote note b.v3 then { b with v3 := b.v3.noteOn note vel inc subInc }
  else if b.v0.envelope.state = EState.Idle then { b with v0 := b.v0.noteOn note vel inc subInc }
  else if b.v1.envelope.state = EState.Idle then { b with v1 := b.v1.noteOn note vel inc subInc }
  else if b.v2.envelope.state = EState.Idle then { b with v2 := b.v2.noteOn note vel inc subInc }
  else if b.v3.envelope.state = EState.Idle then { b with v3 := b.v3.noteOn note vel inc subInc }
  else if b.v0.envelope.state = EState.Release then
    { b with v0 := b.v0.noteOn note vel inc subInc }
  else if b.v1.envelope.state = EState.Release then
    { b with v1 := b.v1.noteOn note vel inc subInc }
  else if b.v2.envelope.state = EState.Release then
    { b with v2 := b.v2.noteOn note vel inc subInc }
  else if b.v3.envelope.state = EState.Release then
    { b with v3 := b.v3.noteOn note vel inc subInc }
  else
    let s3 := stealStep (stealStep (stealStep (⟨0, by norm_num⟩, b) ⟨1, by norm_num⟩)
      ⟨2, by norm_num⟩) ⟨3, by norm_num⟩
    s3.2.set s3.1 ((s3.2.get s3.1).noteOn note vel inc subInc)

/-- `SimpleFixedOscModule::handleNoteOff`: the first voice that is active on the
note receives `noteOff`; no other voice is touched. -/
def handleNoteOff (b : VoiceBank) (note : Nat) : VoiceBank :=
  if b.v0.isActive = true ∧ b.v0.midiNote = note then { b with v0 := b.v0.noteOff }
  else if b.v1.isActive = true ∧ b.v1.midiNote = note then { b with v1 := b.v1.noteOff }
  else if b.v2.isActive = true ∧ b.v2.midiNote = note then { b with v2 := b.v2.noteOff }
  else if b.v3.isActive = true ∧ b.v3.midiNote = note then { b with v3 := b.v3.noteOff }
  else b

/-- A voice in a given envelope state holding a given note. -/
def mkVoiceCE (st : EState) (lvl : Int) (note : Nat) : Voice :=
  { sawOsc := ⟨0, 0⟩, pulseOsc := ⟨⟨0, 0⟩, FIX15_HALF⟩, subOsc := ⟨0, 0⟩, noiseSeed := 1,
    envelope := { EnvState.init 441 2205 441 8820 22050 220 with
                    state := st, currentLevel := lvl },
    filter := ⟨0, 0, 0, 0⟩, midiNote := note, isActive := true, velocity := 16384,
    sVelocity := Fix15SmoothedValue.mk0 }

/-- Three voices attacking, voice 1 in Sustain. -/
def bankCE : VoiceBank :=
  { v0 := mkVoiceCE EState.Attack 16000 60,
    v1 := mkVoiceCE EState.Sustain 9830 62,
    v2 := mkVoiceCE EState.Attack 20000 64,
    v3 := mkVoiceCE EState.Attack 25000 65 }

/-- C6 counterexample: on `bankCE` a note-on for a new note reaches the stealing
branch (no voice holds note 99, none is Idle, none is in Release), voice 1 is
in Sustain — by the claim it should be stolen — yet voice 0, still in Attack,
receives the new note and voice 1 keeps note 62. -/
theorem claim_C6_counterexample :
    (∀ i : Fin 4, ¬ matchesNote 99 (bankCE.get i)) ∧
    (∀ i : Fin 4, (bankCE.get i).envelope.state ≠ EState.Idle) ∧
    (∀ i : Fin 4, (bankCE.get i).envelope.state ≠ EState.Release) ∧
    bankCE.v1.envelope.state = EState.Sustain ∧
    bankCE.v0.envelope.state = EState.Attack ∧
    (handleNoteOn bankCE 99 16384 7 3).v0.midiNote = 99 ∧
    (handleNoteOn bankCE 99 16384 7 3).v1.midiNote = 62 := by
  refine ⟨by decide, by decide, by decide, by decide, by decide, by decide, by decide⟩

/-- C6 amended: note-on picks (1) the first voice with `midiNote == note` that
is active or whose envelope is non-Idle — retriggered with no other voice
touched; else (2) the first voice whose envelope is Idle; else (3) the first
voice in Release; else (4) a pairwise scan that starts with voice 0 as the
candidate and replaces it only when both the candidate and the scanned voice
are in Sustain and the scanned voice's envelope level (each advanced one sample
by the comparison) is strictly lower — in particular, when voice 0 is not in
Sustain, voice 0 is stolen even if another voice is in Sustain. -/
theorem claim_C6_amended (b : VoiceBank) (note : Nat) (vel inc subInc : Int) :
    (∀ j : Fin 4, matchesNote note (b.get j) →
      (∀ i : Fin 4, i < j → ¬ matchesNote note (b.get i)) →
      handleNoteOn b note vel inc subInc = b.set j ((b.get j).noteOn note vel inc subInc)) ∧
    ((∀ i : Fin 4, ¬ matchesNote note (b.get i)) →
      ∀ j : Fin 4, (b.get j).envelope.state = EState.Idle →
      (∀ i : Fin 4, i < j → (b.get i).envelope.state ≠ EState.Idle) →
      handleNoteOn b note vel inc subInc = b.set j ((b.get j).noteOn note vel inc subInc)) ∧
    ((∀ i : Fin 4, ¬ matchesNote note (b.get i)) →
      (∀ i : Fin 4, (b.get i).envelope.state ≠ EState.Idle) →
      ∀ j : Fin 4, (b.get j).envelope.state = EState.Release →
      (∀ i : Fin 4, i < j → (b.get i).envelope.state ≠ EState.Release) →
      handleNoteOn b note vel inc subInc = b.set j ((b.get j).noteOn note vel inc subInc)) ∧
    ((∀ i : Fin 4, ¬ matchesNote note (b.get i)) →
      (∀ i : Fin 4, (b.get i).envelope.state ≠ EState.Idle) →
      (∀ i : Fin 4, (b.get i).envelope.state ≠ EState.Release) →
      b.v0.envelope.state ≠ EState.Sustain →
      handleNoteOn b note vel inc subInc =
        b.set ⟨0, by norm_num⟩ (b.v0.noteOn note vel inc subInc)) := by
  refine ⟨?_, ?_, ?_, ?_⟩
  · intro j
    fin_cases j
    · intro hm _
      replace hm : matchesNote note b.v0 := hm
      unfold handleNoteOn
      rw [if_pos hm]
      rfl
    · intro hm hprev
      replace hm : matchesNote note b.v1 := hm
      have n0 : ¬ matchesNote note b.v0 := hprev ⟨0, by norm_num⟩ (by decide)
      unfold handleNoteOn
      rw [if_neg n0, if_pos hm]
      rfl
    · intro hm hprev
      replace hm : matchesNote note b.v2 := hm
      have n0 : ¬ matchesNote note b.v0 := hprev ⟨0, by norm_num⟩ (by decide)
      have n1 : ¬ matchesNote note b.v1 := hprev ⟨1, by norm_num⟩ (by decide)
      unfold handleNoteOn
      rw [if_neg n0, if_neg n1, if_pos hm]
      rfl
    · intro hm hprev
      replace hm : matchesNote note b.v3 := hm
      have n0 : ¬ matchesNote note b.v0 := hprev ⟨0, by norm_num⟩ (by decide)
      have n1 : ¬ matchesNote note b.v1 := hprev ⟨1, by norm_num⟩ (by decide)
      have n2 : ¬ matchesNote note b.v2 := hprev ⟨2, by norm_num⟩ (by decide)
      unfold handleNoteOn
      rw [if_neg n0, if_neg n1, if_neg n2, if_pos hm]
      rfl
  · intro hnm j
    have m0 : ¬ matchesNote note b.v0 := hnm ⟨0, by norm_num⟩
    have m1 : ¬ matchesNote note b.v1 := hnm ⟨1, by norm_num⟩
    have m2 : ¬ matchesNote note b.v2 := hnm ⟨2, by norm_num⟩
    have m3 : ¬ matchesNote note b.v3 := hnm ⟨3, by norm_num⟩
    fin_cases j
    · intro hi _
      replace hi : b.v0.envelope.state = EState.Idle := hi
      unfold handleNoteOn
      rw [if_neg m0, if_neg m1, if_neg m2, if_neg m3, if_pos hi]
      rfl
    · intro hi hprev
      replace hi : b.v1.envelope.state = EState.Idle := hi
      have n0 : b.v0.envelope.state ≠ EState.Idle := hprev ⟨0, by norm_num⟩ (by decide)
      unfold handleNoteOn
      rw [if_neg m0, if_neg m1, if_neg m2, if_neg m3, if_neg n0, if_pos hi]
      rfl
    · intro hi hprev
      replace hi : b.v2.envelope.state = EState.Idle := hi
      have n0 : b.v0.envelope.state ≠ EState.Idle := hprev ⟨0, by norm_num⟩ (by decide)
      have n1 : b.v1.envelope.state ≠ EState.Idle := hprev ⟨1, by norm_num⟩ (by decide)
      unfold handleNoteOn
      rw [if_neg m0, if_neg m1, if_neg m2, if_neg m3, if_neg n0, if_neg n1, if_pos hi]
      rfl
    · intro hi hprev
      replace hi : b.v3.envelope.state = EState.Idle := hi
      have n0 : b.v0.envelope.state ≠ EState.Idle := hprev ⟨0, by norm_num⟩ (by decide)
      have n1 : b.v1.envelope.state ≠ EState.Idle := hprev ⟨1, by norm_num⟩ (by decide)
      have n2 : b.v2.envelope.state ≠ EState.Idle := hprev ⟨2, by norm_num⟩ (by decide)
      unfold handleNoteOn
      rw [if_neg m0, if_neg m1, if_neg m2, if_neg m3, if_neg n0, if_neg n1, if_neg n2,
          if_pos hi]
      rfl
  · intro hnm hni j
    have m0 : ¬ matchesNote note b.v0 := hnm ⟨0, by norm_num⟩
    have m1 : ¬ matchesNote note b.v1 := hnm ⟨1, by norm_num⟩
    have m2 : ¬ matchesNote note b.v2 := hnm ⟨2, by norm_num⟩
    have m3 : ¬ matchesNote note b.v3 := hnm ⟨3, by norm_num⟩
    have i0 : b.v0.envelope.state ≠ EState.Idle := hni ⟨0, by norm_num⟩
    have i1 : b.v1.envelope.state ≠ EState.Idle := hni ⟨1, by norm_num⟩
    have i2 : b.v2.envelope.state ≠ EState.Idle := hni ⟨2, by norm_num⟩
    have i3 : b.v3.envelope.state ≠ EState.Idle := hni ⟨3, by norm_num⟩
    fin_cases j
    · intro hr _
      replace hr : b.v0.envelope.state = EState.Release := hr
      unfold handleNoteOn
      rw [if_neg m0, if_neg m1, if_neg m2, if_neg m3, if_neg i0, if_neg i1, if_neg i2,
          if_neg i3, if_pos hr]
      rfl
    · intro hr hprev
      replace hr : b.v1.envelope.state = EState.Release := hr
      have n0 : b.v0.envelope.state ≠ EState.Release := hprev ⟨0, by norm_num⟩ (by decide)
      unfold handleNoteOn
      rw [if_neg m0, if_neg m1, if_neg m2, if_neg m3, if_neg i0, if_neg i1, if_neg i2,
          if_neg i3, if_neg n0, if_pos hr]
      rfl
    · intro hr hprev
      replace hr : b.v2.envelope.state = EState.Release := hr
      have n0 : b.v0.envelope.state ≠ EState.Release := hprev ⟨0, by norm_num⟩ (by decide)
      have n1 : b.v1.envelope.state ≠ EState.Release := hprev ⟨1, by norm_num⟩ (by decide)
      unfold handleNoteOn
      rw [if_neg m0, if_neg m1, if_neg m2, if_neg m3, if_neg i0, if_neg i1, if_neg i2,
          if_neg i3, if_neg n0, if_neg n1, if_pos hr]
      rfl
    · intro hr hprev
      replace hr : b.v3.envelope.state = EState.Release := hr
      have n0 : b.v0.envelope.state ≠ EState.Release := hprev ⟨0, by norm_num⟩ (by decide)
      have n1 : b.v1.envelope.state ≠ EState.Release := hprev ⟨1, by norm_num⟩ (by decide)
      have n2 : b.v2.envelope.state ≠ EState.Release := hprev ⟨2, by norm_num⟩ (by decide)
      unfold handleNoteOn
      rw [if_neg m0, if_neg m1, if_neg m2, if_neg m3, if_neg i0, if_neg i1, if_neg i2,
          if_neg i3, if_neg n0, if_neg n1, if_neg n2, if_pos hr]
      rfl
  · intro hnm hni hnr hv0
    have m0 : ¬ matchesNote note b.v0 := hnm ⟨0, by norm_num⟩
    have m1 : ¬ matchesNote note b.v1 := hnm ⟨1, by norm_num⟩
    have m2 : ¬ matchesNote note b.v2 := hnm ⟨2, by norm_num⟩
    have m3 : ¬ matchesNote note b.v3 := hnm ⟨3, by norm_num⟩
    have i0 : b.v0.envelope.state ≠ EState.Idle := hni ⟨0, by norm_num⟩
    have i1 : b.v1.envelope.state ≠ EState.Idle := hni ⟨1, by norm_num⟩
    have i2 : b.v2.envelope.state ≠ EState.Idle := hni ⟨2, by norm_num⟩
    have i3 : b.v3.envelope.state ≠ EState.Idle := hni ⟨3, by norm_num⟩
    have r0 : b.v0.envelope.state ≠ EState.Release := hnr ⟨0, by norm_num⟩
    have r1 : b.v1.envelope.state ≠ EState.Release := hnr ⟨1, by norm_num⟩
    have r2 : b.v2.envelope.state ≠ EState.Release := hnr ⟨2, by norm_num⟩
    have r3 : b.v3.envelope.state ≠ EState.Release := hnr ⟨3, by norm_num⟩
    have hscan : ∀ i : Fin 4, stealStep (⟨⟨0, by norm_num⟩, b⟩ : Fin 4 × VoiceBank) i =
        (⟨0, by norm_num⟩, b) := by
      intro i
      unfold stealStep
      rw [if_neg]
      intro hand
      exact hv0 hand.2
    unfold handleNoteOn
    rw [if_neg m0, if_neg m1, if_neg m2, if_neg m3, if_neg i0, if_neg i1, if_neg i2,
        if_neg i3, if_neg r0, if_neg r1, if_neg r2, if_neg r3]
    rw [hscan ⟨1, by norm_num⟩, hscan ⟨2, by norm_num⟩, hscan ⟨3, by norm_num⟩]
    rfl

/-- C6 witness: `bankCE` reaches the stealing branch with voice 0 not in
Sustain, so voice 0 is the stolen voice. -/
theorem claim_C6_witness :
    handleNoteOn bankCE 99 16384 7 3 =
      bankCE.set ⟨0, by norm_num⟩ (bankCE.v0.noteOn 99 16384 7 3) :=
  (claim_C6_amended bankCE 99 16384 7 3).2.2.2 (by decide) (by decide) (by decide) (by decide)

/-- C10: a note-off for a note no voice is actively holding changes nothing —
`handleNoteOff` leaves the whole bank untouched — and `Voice::noteOff()` on a
voice whose `isActive` is already false is a no-op. -/
theorem claim_C10 (b : VoiceBank) (note : Nat) :
    ((∀ i : Fin 4, ¬ ((b.get i).isActive = true ∧ (b.get i).midiNote = note)) →
      handleNoteOff b note = b) ∧
    (∀ v : Voice, v.isActive = false → v.noteOff = v) := by
  constructor
  · intro hno
    have n0 : ¬ (b.v0.isActive = true ∧ b.v0.midiNote = note) := hno ⟨0, by norm_num⟩
    have n1 : ¬ (b.v1.isActive = true ∧ b.v1.midiNote = note) := hno ⟨1, by norm_num⟩
    have n2 : ¬ (b.v2.isActive = true ∧ b.v2.midiNote = note) := hno ⟨2, by norm_num⟩
    have n3 : ¬ (b.v3.isActive = true ∧ b.v3.midiNote = note) := hno ⟨3, by norm_num⟩
    unfold handleNoteOff
    rw [if_neg n0, if_neg n1, if_neg n2, if_neg n3]
  · intro v hv
    unfold Voice.noteOff
    rw [if_pos hv]

/-- An entirely inactive bank holding no note. -/
def idleBank : VoiceBank :=
  { v0 := { mkVoiceCE EState.Idle 0 60 with isActive := false },
    v1 := { mkVoiceCE EState.Idle 0 62 with isActive := false },
    v2 := { mkVoiceCE EState.Idle 0 64 with isActive := false },
    v3 := { mkVoiceCE EState.Idle 0 65 with isActive := false } }

/-- C10 witness: a note-off for note 60 on the inactive `idleBank` changes
nothing, and `noteOff` on its (inactive) first voice is a no-op. -/
theorem claim_C10_witness :
    handleNoteOff idleBank 60 = idleBank ∧ idleBank.v0.noteOff = idleBank.v0 := by
  have h := claim_C10 idleBank 60
  exact ⟨h.1 (by decide), h.2 idleBank.v0 (by decide)⟩
